/-
Verification of the transaction classification / conversion / aggregation core
of the scalable-to-tradingview repository.

The TypeScript source is shallowly embedded:
* JS numbers are modelled as exact rationals (ℚ).  All numeric values the
  converters manipulate come from short decimal strings, so no floating-point
  rounding behaviour is relevant to the claims checked here.
* JS strings are Lean `String`s; the handful of string primitives the source
  uses (`trim`, `toLowerCase`, `includes`, `lastIndexOf`, `split`, `replace`)
  are implemented below on the underlying character lists with JS semantics.
  Lowercasing is ASCII-only, which covers every string the source compares.
* Numeric record fields that the source stores as decimal strings (and later
  re-parses with `parseFloat(x) || 0`) are modelled as `ℚ`, or `Option ℚ`
  where the source distinguishes the empty string from a number.
* `parseFloat` is modelled as the JS prefix parse of an optionally signed
  decimal literal with optional exponent ("Infinity" and hex forms are not
  modelled; no input built from digit/sign/separator characters produces
  them).
-/
import Mathlib

namespace ScalableConv

/-! ## JS string primitives, modelled on character lists -/

/-- Whitespace characters stripped by JS `String.prototype.trim` (ASCII part). -/
def isWsChar (c : Char) : Bool :=
  c = ' ' || c = '\t' || c = '\n' || c = '\r'

/-- JS `trim` on a character list. -/
def trimList (l : List Char) : List Char :=
  ((l.dropWhile isWsChar).reverse.dropWhile isWsChar).reverse

/-- JS `value.trim()`. -/
def trimStr (s : String) : String :=
  ⟨trimList s.data⟩

/-- ASCII lowercasing, as JS `toLowerCase` acts on the ASCII strings the
source compares against. -/
def toLowerStr (s : String) : String :=
  ⟨s.data.map Char.toLower⟩

/-- The source's pervasive normalisation `x.toLowerCase().trim()`. -/
def normLT (s : String) : String :=
  trimStr (toLowerStr s)

/-- Is `pre` a prefix of `l`? -/
def isPrefixL : List Char → List Char → Bool
  | [], _ => true
  | _ :: _, [] => false
  | a :: as, b :: bs => a = b && isPrefixL as bs

/-- Does `sub` occur as a contiguous substring of `l`?  (JS `includes`.) -/
def isInfixL (sub : List Char) : List Char → Bool
  | [] => isPrefixL sub []
  | b :: bs => isPrefixL sub (b :: bs) || isInfixL sub bs

/-- JS `s.includes(sub)`. -/
def containsSub (s sub : String) : Bool :=
  isInfixL sub.data s.data

/-- Number of occurrences of character `c` (JS `(s.match(/c/g) || []).length`). -/
def countChar (s : String) (c : Char) : ℕ :=
  s.data.count c

/-- Index of the last occurrence of `c`, if any. -/
def lastIndexAux (l : List Char) (c : Char) : Option ℕ :=
  match l with
  | [] => none
  | x :: xs =>
    match lastIndexAux xs c with
    | some n => some (n + 1)
    | none => if x = c then some 0 else none

/-- JS `s.lastIndexOf(c)`: greatest index of `c`, or `-1`. -/
def lastIndexOfC (s : String) (c : Char) : Int :=
  match lastIndexAux s.data c with
  | some n => (n : Int)
  | none => -1

/-- JS `s.split(c)` on character lists.  `[] ↦ [[]]`, matching `"".split`. -/
def splitOnCharL (c : Char) : List Char → List (List Char)
  | [] => [[]]
  | x :: xs =>
    let r := splitOnCharL c xs
    if x = c then [] :: r
    else
      match r with
      | h :: t => (x :: h) :: t
      | [] => [[x]]

/-- JS `s.replace(/c/g, '')`: remove every occurrence of `c`. -/
def removeAllChar (s : String) (c : Char) : String :=
  ⟨s.data.filter (fun x => x != c)⟩

/-- Replace the first occurrence of `c` by `d` (JS `s.replace(c, d)` with a
string pattern, which substitutes only the first match). -/
def replaceFirstCharL (c d : Char) : List Char → List Char
  | [] => []
  | x :: xs => if x = c then d :: xs else x :: replaceFirstCharL c d xs

/-- String version of `replaceFirstCharL`. -/
def replaceFirstChar (s : String) (c d : Char) : String :=
  ⟨replaceFirstCharL c d s.data⟩

/-! ## JS `parseFloat`, modelled over ℚ -/

/-- Decimal digit test. -/
def isDigitChar (c : Char) : Bool :=
  '0' ≤ c && c ≤ '9'

/-- Value of a digit string. -/
def digitsVal (l : List Char) : ℕ :=
  l.foldl (fun acc c => acc * 10 + (c.toNat - 48)) 0

/-- JS `parseFloat`: longest prefix parse of an optionally signed decimal
literal with optional exponent; `none` models `NaN`. -/
def jsParseFloat (s : String) : Option ℚ :=
  let l := s.data.dropWhile isWsChar
  let sign : ℚ × List Char :=
    match l with
    | '-' :: rest => (-1, rest)
    | '+' :: rest => (1, rest)
    | _ => (1, l)
  let intPart := sign.2.takeWhile isDigitChar
  let l2 := sign.2.dropWhile isDigitChar
  let frac : List Char × List Char :=
    match l2 with
    | '.' :: rest => (rest.takeWhile isDigitChar, rest.dropWhile isDigitChar)
    | _ => ([], l2)
  if intPart = [] ∧ frac.1 = [] then none
  else
    let mantissa : ℚ := (digitsVal intPart : ℚ) + (digitsVal frac.1 : ℚ) / (10 ^ frac.1.length)
    let exp : ℤ :=
      match frac.2 with
      | e :: rest =>
        if e = 'e' ∨ e = 'E' then
          let esign : ℤ × List Char :=
            match rest with
            | '-' :: rr => (-1, rr)
            | '+' :: rr => (1, rr)
            | _ => (1, rest)
          let eds := esign.2.takeWhile isDigitChar
          if eds = [] then 0 else esign.1 * (digitsVal eds : ℤ)
        else 0
      | [] => 0
    some (sign.1 * mantissa * (10 : ℚ) ^ exp)

/-- JS `parseFloat(s) || 0`: `NaN` (and hence a non-numeric string) coerces
to `0`. -/
def parseFloatOr0 (s : String) : ℚ :=
  (jsParseFloat s).getD 0

/-! ## `parseEuropeanNumber` (identical in both converter source files) -/

/-- `parseEuropeanNumber` from the source: disambiguates European
("1.234,56") versus US ("1,234.56") separators. -/
def parseEuropeanNumber (value : String) : ℚ :=
  if value = "" ∨ trimStr value = "" then 0
  else
    let normalized := trimStr value
    let commaCount := countChar normalized ','
    let dotCount := countChar normalized '.'
    let lastComma := lastIndexOfC normalized ','
    let lastDot := lastIndexOfC normalized '.'
    let normalized2 :=
      if lastComma > lastDot then
        -- European format with decimal: 1.234,56 or just 25,50
        replaceFirstChar (removeAllChar normalized '.') ',' '.'
      else if lastDot > lastComma ∧ commaCount > 0 then
        -- US format: 1,234.56
        removeAllChar normalized ','
      else if commaCount = 1 ∧ dotCount = 0 then
        -- Only comma, treat as decimal separator
        replaceFirstChar normalized ',' '.'
      else if dotCount > 0 ∧ commaCount = 0 then
        -- Only dots: thousand separator iff every later segment has length 3
        let parts := splitOnCharL '.' normalized.data
        if (parts.drop 1).all (fun part => part.length = 3) ∧ parts.length > 1 then
          removeAllChar normalized '.'
        else normalized
      else normalized
    parseFloatOr0 normalized2

example : parseEuropeanNumber "1.234,56" = 123456 / 100 := by with_unfolding_all rfl
example : parseEuropeanNumber "1,234.56" = 123456 / 100 := by with_unfolding_all rfl
example : parseEuropeanNumber "1.000" = 1000 := by with_unfolding_all rfl
example : parseEuropeanNumber "25,50" = 51 / 2 := by with_unfolding_all rfl
example : parseEuropeanNumber "" = 0 := by with_unfolding_all rfl
example : parseEuropeanNumber "1,2,3" = 6 / 5 := by with_unfolding_all rfl
example : parseEuropeanNumber "1.2.3" = 6 / 5 := by with_unfolding_all rfl
example : parseEuropeanNumber "-155,04" = -15504 / 100 := by with_unfolding_all rfl

/-! ## Data model (from `src/app/lib/types.ts`) -/

/-- One parsed row of the Scalable Capital CSV export. -/
structure ScalableTransaction where
  date : String
  time : String
  status : String
  reference : String
  description : String
  assetType : String
  type : String
  isin : String
  shares : String
  price : String
  amount : String
  fee : String
  tax : String
  currency : String
deriving DecidableEq, Inhabited

/-- Transaction sides supported by TradingView (target format A). -/
inductive TVSide where
  | buy
  | sell
  | dividend
  | withdrawal
  | deposit
  | taxesAndFees
deriving DecidableEq, Inhabited

/-- A TradingView (format A) output record.  The numeric columns are decimal
strings in the source; `none` models the empty string, `some q` the decimal
representation of `q`. -/
structure TVRecord where
  Symbol : String
  Side : TVSide
  Qty : Option ℚ
  FillPrice : Option ℚ
  Commission : Option ℚ
  ClosingTime : String
deriving DecidableEq, Inhabited

/-- Activity types supported by Wealthfolio (target format B). -/
inductive WFActivity where
  | BUY
  | SELL
  | DIVIDEND
  | INTEREST
  | DEPOSIT
  | WITHDRAWAL
  | TRANSFER_IN
  | TRANSFER_OUT
  | FEE
  | TAX
deriving DecidableEq, Inhabited

/-- A Wealthfolio (format B) output record.  `quantity`, `unitPrice` and
`fee` are written as `'0'` when not positive, so they carry a plain rational;
`amount` is written as the empty string when not positive, hence `Option ℚ`. -/
structure WFRecord where
  date : String
  symbol : String
  quantity : ℚ
  activityType : WFActivity
  unitPrice : ℚ
  currency : String
  fee : ℚ
  amount : Option ℚ
deriving DecidableEq, Inhabited

/-- Resolved symbol information handed back by the ISIN resolver. -/
structure ResolvedSymbol where
  ticker : String
  exchange : String
  exchCode : String
  fullSymbol : String
  yahooSymbol : Option String := none
  tradingViewSymbol : Option String := none
  securityType : Option String := none
  securityType2 : Option String := none
  marketSector : Option String := none
deriving DecidableEq, Inhabited

/-- Error raised for a row during conversion. -/
structure ConversionError where
  row : ℕ
  isin : String
  description : String
  error : String
deriving DecidableEq, Inhabited

/-- A row skipped during conversion, with its human-readable reason. -/
structure SkippedTransaction where
  row : ℕ
  type : String
  description : String
  reason : String
deriving DecidableEq, Inhabited

/-- Result of the format A conversion. -/
structure ConversionResult where
  transactions : List TVRecord
  errors : List ConversionError
  skipped : List SkippedTransaction
deriving DecidableEq

/-- Result of the format B conversion. -/
structure WealthfolioConversionResult where
  transactions : List WFRecord
  errors : List ConversionError
  skipped : List SkippedTransaction
deriving DecidableEq

/-- Conversion mode. -/
inductive ConversionMode where
  | detailed
  | aggregated
deriving DecidableEq

/-- The pre-computed ISIN → resolved-symbol-or-null mapping (a JS `Map`
whose values may be `null`). -/
def SymbolMap : Type := List (String × Option ResolvedSymbol)

/-- `symbolMap.get(isin)`: `none` for an absent key, `some none` for an
explicit `null` entry. -/
def lookupSymbolMap (m : SymbolMap) (k : String) : Option (Option ResolvedSymbol) :=
  (List.find? (fun p => p.1 == k) m).map (fun p => p.2)

/-! ## Status gate and type mapping -/

/-- Statuses that should be processed. -/
def VALID_STATUSES : List String := ["executed", "completed", "done"]

/-- Statuses that cause a row to be skipped. -/
def SKIP_STATUSES : List String := ["cancelled", "canceled", "rejected", "pending", "failed"]

/-- `shouldSkipStatus` (identical in both converters). -/
def shouldSkipStatus (status : String) : Bool :=
  let normalizedStatus := normLT status
  SKIP_STATUSES.any (fun s => containsSub normalizedStatus s)

/-- `isValidStatus` (identical in both converters): empty status passes. -/
def isValidStatus (status : String) : Bool :=
  let normalizedStatus := normLT status
  if normalizedStatus = "" then true
  else VALID_STATUSES.any (fun s => containsSub normalizedStatus s)

/-- Format A type-mapping table, in the source's insertion order.  A `none`
value is an explicit `null` entry (type recognised but unsupported). -/
def TYPE_MAPPING_A : List (String × Option TVSide) :=
  [("buy", some .buy), ("savings plan", some .buy), ("sparplan", some .buy),
   ("sell", some .sell),
   ("dividend", some .dividend), ("distribution", some .dividend), ("interest", some .dividend),
   ("withdrawal", some .withdrawal), ("deposit", some .deposit),
   ("taxes and fees", some .taxesAndFees), ("taxes", some .taxesAndFees),
   ("tax", some .taxesAndFees), ("fee", some .taxesAndFees),
   ("security transfer", none), ("transfer", none), ("corporate action", none),
   ("stock split", none), ("merger", none), ("spin", none), ("spin-off", none)]

/-- Format B type-mapping table, in the source's insertion order. -/
def TYPE_MAPPING_B : List (String × Option WFActivity) :=
  [("buy", some .BUY), ("savings plan", some .BUY), ("sparplan", some .BUY),
   ("sell", some .SELL),
   ("dividend", some .DIVIDEND), ("distribution", some .DIVIDEND),
   ("interest", some .INTEREST),
   ("withdrawal", some .WITHDRAWAL), ("deposit", some .DEPOSIT),
   ("taxes", some .TAX), ("tax", some .TAX),
   ("fee", some .FEE), ("taxes and fees", some .FEE),
   ("security transfer", none), ("transfer", none), ("corporate action", none),
   ("stock split", none), ("merger", none), ("spin", none), ("spin-off", none)]

/-- `mapTransactionType` (format A): exact lookup first, then substring
containment over the table in insertion order. -/
def mapTransactionTypeA (type : String) : Option TVSide :=
  let normalizedType := normLT type
  match (List.find? (fun p => p.1 == normalizedType) TYPE_MAPPING_A).map (fun p => p.2) with
  | some v => v
  | none =>
    match List.find? (fun p => containsSub normalizedType p.1) TYPE_MAPPING_A with
    | some p => p.2
    | none => none

/-- `mapTransactionType` (format B). -/
def mapTransactionTypeB (type : String) : Option WFActivity :=
  let normalizedType := normLT type
  match (List.find? (fun p => p.1 == normalizedType) TYPE_MAPPING_B).map (fun p => p.2) with
  | some v => v
  | none =>
    match List.find? (fun p => containsSub normalizedType p.1) TYPE_MAPPING_B with
    | some p => p.2
    | none => none

/-! ## Special-case detectors -/

/-- `isStornoTransaction` (identical in both converters). -/
def isStornoTransaction (t : ScalableTransaction) : Bool :=
  let descLower := toLowerStr t.description
  let refLower := toLowerStr t.reference
  containsSub descLower "storno" || containsSub refLower "cancel" ||
    containsSub refLower "storno"

/-- `isInterestSettlement` as written in the format A generator
(`part_007`): the third disjunct is redundant but kept faithfully. -/
def isInterestSettlementA (t : ScalableTransaction) : Bool :=
  if normLT t.type ≠ "interest" then false
  else
    let amount := parseEuropeanNumber t.amount
    let tax := parseEuropeanNumber t.tax
    let descLower := toLowerStr t.description
    let isKktAbschluss := containsSub descLower "kkt" || containsSub descLower "abschluss"
    isKktAbschluss || decide (amount < 0) || (isKktAbschluss && decide (tax > 0))

/-- `isInterestSettlement` as written in the format B generator. -/
def isInterestSettlementB (t : ScalableTransaction) : Bool :=
  if normLT t.type ≠ "interest" then false
  else
    let amount := parseEuropeanNumber t.amount
    let descLower := toLowerStr t.description
    let isKktAbschluss := containsSub descLower "kkt" || containsSub descLower "abschluss"
    isKktAbschluss || decide (amount < 0)

/-- `formatDateTime` for format A: `"YYYY-MM-DD HH:MM:SS"`. -/
def formatDateTimeA (date time : String) : String :=
  if date = "" then ""
  else
    let datePart := trimStr date
    let timePart := if trimStr time = "" then "00:00:00" else trimStr time
    let timePart2 :=
      if (splitOnCharL ':' timePart.data).length = 2 then timePart ++ ":00" else timePart
    datePart ++ " " ++ timePart2

/-- `formatDateTime` for format B: `"YYYY-MM-DDTHH:MM:SS.000Z"`. -/
def formatDateTimeB (date time : String) : String :=
  if date = "" then ""
  else
    let datePart := trimStr date
    let timePart := if trimStr time = "" then "00:00:00" else trimStr time
    let timePart2 :=
      if (splitOnCharL ':' timePart.data).length = 2 then timePart ++ ":00" else timePart
    datePart ++ "T" ++ timePart2 ++ ".000Z"

/-! ## Per-target symbol derivation -/

/-- `getTradingViewSymbol` (format A): validated symbol if truthy, else the
OpenFIGI `fullSymbol`.  A JS-falsy (absent or empty) validated symbol falls
through. -/
def getTradingViewSymbol (resolved : ResolvedSymbol) : String :=
  match resolved.tradingViewSymbol with
  | some s => if s = "" then resolved.fullSymbol else s
  | none => resolved.fullSymbol

/-- Yahoo Finance suffix table for German exchange codes. -/
def YAHOO_FINANCE_SUFFIXES : List (String × String) :=
  [("GR", ".DE"), ("GF", ".F"), ("GM", ".MU"), ("GT", ".DE"),
   ("GS", ".SG"), ("GH", ".HM"), ("QT", ".DE")]

/-- Object-key lookup in the suffix table. -/
def lookupSuffix (k : String) : Option String :=
  (List.find? (fun p => p.1 == k) YAHOO_FINANCE_SUFFIXES).map (fun p => p.2)

/-- `YAHOO_FINANCE_SUFFIXES[exchCode] || '.DE'`. -/
def suffixOrDefault (k : String) : String :=
  match lookupSuffix k with
  | some s => if s = "" then ".DE" else s
  | none => ".DE"

/-- `convertToYahooSymbol` (format B): validated Yahoo symbol if truthy,
else ticker plus the exchange-code suffix. -/
def convertToYahooSymbol (resolved : ResolvedSymbol) : String :=
  match resolved.yahooSymbol with
  | some s => if s = "" then resolved.ticker ++ suffixOrDefault resolved.exchCode else s
  | none => resolved.ticker ++ suffixOrDefault resolved.exchCode

/-! ## Aggregator, format A

`parseFloat(field) || 0` on a stored numeric column is `Option.getD 0` in
this model (the empty string parses to 0). -/

/-- Numeric value of the `Qty` column as the aggregator reads it back. -/
def qtyV (r : TVRecord) : ℚ := r.Qty.getD 0

/-- Numeric value of the `Fill Price` column. -/
def priceV (r : TVRecord) : ℚ := r.FillPrice.getD 0

/-- Numeric value of the `Commission` column. -/
def commV (r : TVRecord) : ℚ := r.Commission.getD 0

/-- The merged record `aggregateGroup` builds for a group (meaningful for
nonempty groups; the source indexes `group[0]` and `group[length-1]`). -/
def mergeA (g : List TVRecord) : TVRecord :=
  let totalQty := (g.map qtyV).sum
  let totalValue := (g.map (fun tx => qtyV tx * priceV tx)).sum
  let totalCommission := (g.map commV).sum
  let avgPrice := if totalQty > 0 then totalValue / totalQty else 0
  let lastTx := g.getLastD default
  { Symbol := (g.headD default).Symbol
    Side := (g.headD default).Side
    Qty := if totalQty > 0 then some totalQty else none
    FillPrice := if avgPrice > 0 then some avgPrice else none
    Commission := if totalCommission > 0 then some totalCommission else none
    ClosingTime := lastTx.ClosingTime }

/-- `aggregateGroup` (format A): throws on an empty group, passes a
singleton through, merges otherwise. -/
def aggregateGroupA (group : List TVRecord) : Except String TVRecord :=
  match group with
  | [] => .error "Cannot aggregate empty group"
  | [tx] => .ok tx
  | g => .ok (mergeA g)

/-- The mutable accumulator state of `aggregateTransactions` (format A). -/
structure AggStateA where
  result : List TVRecord
  group : List TVRecord
  curSym : Option String
  curSide : Option TVSide
deriving DecidableEq

/-- `flushGroup` (format A): empty group is a no-op, a singleton is pushed
unchanged, a larger group is merged. -/
def flushA (s : AggStateA) : AggStateA :=
  match s.group with
  | [] => s
  | [x] => { s with result := s.result ++ [x], group := [] }
  | x :: y :: rest => { s with result := s.result ++ [mergeA (x :: y :: rest)], group := [] }

/-- One iteration of the `aggregateTransactions` loop (format A). -/
def stepA (s : AggStateA) (tx : TVRecord) : AggStateA :=
  if tx.Side = .buy ∨ tx.Side = .sell then
    if s.curSym = some tx.Symbol ∧ s.curSide = some tx.Side then
      { s with group := s.group ++ [tx] }
    else
      let s2 := flushA s
      { s2 with curSym := some tx.Symbol, curSide := some tx.Side, group := [tx] }
  else
    let s2 := flushA s
    { s2 with curSym := none, curSide := none, result := s2.result ++ [tx] }

/-- Initial accumulator state (format A). -/
def initStateA : AggStateA := ⟨[], [], none, none⟩

/-- Run the loop body over a record list from a given state (format A). -/
def runA (s : AggStateA) (txs : List TVRecord) : AggStateA :=
  txs.foldl stepA s

/-- `aggregateTransactions` (format A). -/
def aggregateTransactionsA (transactions : List TVRecord) : List TVRecord :=
  if transactions = [] then []
  else (flushA (runA initStateA transactions)).result

/-- `flushGroup` with the `aggregateGroup` exception propagated instead of
resolved away: the semantics of the source if the assertion could fire. -/
def flushEA (s : AggStateA) : Except String AggStateA :=
  match s.group with
  | [] => .ok s
  | [x] => .ok { s with result := s.result ++ [x], group := [] }
  | x :: y :: rest =>
    match aggregateGroupA (x :: y :: rest) with
    | .ok r => .ok { s with result := s.result ++ [r], group := [] }
    | .error e => .error e

/-- Exception-propagating loop body (format A). -/
def stepEA (acc : Except String AggStateA) (tx : TVRecord) : Except String AggStateA :=
  match acc with
  | .error e => .error e
  | .ok s =>
    if tx.Side = .buy ∨ tx.Side = .sell then
      if s.curSym = some tx.Symbol ∧ s.curSide = some tx.Side then
        .ok { s with group := s.group ++ [tx] }
      else
        match flushEA s with
        | .ok s2 => .ok { s2 with curSym := some tx.Symbol, curSide := some tx.Side, group := [tx] }
        | .error e => .error e
    else
      match flushEA s with
      | .ok s2 => .ok { s2 with curSym := none, curSide := none, result := s2.result ++ [tx] }
      | .error e => .error e

/-- Exception-propagating `aggregateTransactions` (format A). -/
def aggregateTransactionsEA (txs : List TVRecord) : Except String (List TVRecord) :=
  if txs = [] then .ok []
  else
    match txs.foldl stepEA (.ok initStateA) with
    | .ok s => (flushEA s).map AggStateA.result
    | .error e => .error e

/-! ## Aggregator, format B -/

/-- The merged record `aggregateGroup` (format B) builds for a group. -/
def mergeB (g : List WFRecord) : WFRecord :=
  let totalQty := (g.map (fun tx => tx.quantity)).sum
  let totalValue := (g.map (fun tx => tx.quantity * tx.unitPrice)).sum
  let totalFee := (g.map (fun tx => tx.fee)).sum
  let avgPrice := if totalQty > 0 then totalValue / totalQty else 0
  let lastTx := g.getLastD default
  let totalAmount := totalQty * avgPrice
  { date := lastTx.date
    symbol := (g.headD default).symbol
    quantity := if totalQty > 0 then totalQty else 0
    activityType := (g.headD default).activityType
    unitPrice := if avgPrice > 0 then avgPrice else 0
    currency := (g.headD default).currency
    fee := if totalFee > 0 then totalFee else 0
    amount := if totalAmount > 0 then some totalAmount else none }

/-- `aggregateGroup` (format B). -/
def aggregateGroupB (group : List WFRecord) : Except String WFRecord :=
  match group with
  | [] => .error "Cannot aggregate empty group"
  | [tx] => .ok tx
  | g => .ok (mergeB g)

/-- The mutable accumulator state of `aggregateTransactions` (format B). -/
structure AggStateB where
  result : List WFRecord
  group : List WFRecord
  curSym : Option String
  curType : Option WFActivity
deriving DecidableEq

/-- `flushGroup` (format B). -/
def flushB (s : AggStateB) : AggStateB :=
  match s.group with
  | [] => s
  | [x] => { s with result := s.result ++ [x], group := [] }
  | x :: y :: rest => { s with result := s.result ++ [mergeB (x :: y :: rest)], group := [] }

/-- One iteration of the `aggregateTransactions` loop (format B). -/
def stepB (s : AggStateB) (tx : WFRecord) : AggStateB :=
  if tx.activityType = .BUY ∨ tx.activityType = .SELL then
    if s.curSym = some tx.symbol ∧ s.curType = some tx.activityType then
      { s with group := s.group ++ [tx] }
    else
      let s2 := flushB s
      { s2 with curSym := some tx.symbol, curType := some tx.activityType, group := [tx] }
  else
    let s2 := flushB s
    { s2 with curSym := none, curType := none, result := s2.result ++ [tx] }

/-- Initial accumulator state (format B). -/
def initStateB : AggStateB := ⟨[], [], none, none⟩

/-- Run the loop body over a record list from a given state (format B). -/
def runB (s : AggStateB) (txs : List WFRecord) : AggStateB :=
  txs.foldl stepB s

/-- `aggregateTransactions` (format B). -/
def aggregateTransactionsB (transactions : List WFRecord) : List WFRecord :=
  if transactions = [] then []
  else (flushB (runB initStateB transactions)).result

/-- `flushGroup` (format B) with the `aggregateGroup` exception propagated. -/
def flushEB (s : AggStateB) : Except String AggStateB :=
  match s.group with
  | [] => .ok s
  | [x] => .ok { s with result := s.result ++ [x], group := [] }
  | x :: y :: rest =>
    match aggregateGroupB (x :: y :: rest) with
    | .ok r => .ok { s with result := s.result ++ [r], group := [] }
    | .error e => .error e

/-- Exception-propagating loop body (format B). -/
def stepEB (acc : Except String AggStateB) (tx : WFRecord) : Except String AggStateB :=
  match acc with
  | .error e => .error e
  | .ok s =>
    if tx.activityType = .BUY ∨ tx.activityType = .SELL then
      if s.curSym = some tx.symbol ∧ s.curType = some tx.activityType then
        .ok { s with group := s.group ++ [tx] }
      else
        match flushEB s with
        | .ok s2 => .ok { s2 with curSym := some tx.symbol, curType := some tx.activityType, group := [tx] }
        | .error e => .error e
    else
      match flushEB s with
      | .ok s2 => .ok { s2 with curSym := none, curType := none, result := s2.result ++ [tx] }
      | .error e => .error e

/-- Exception-propagating `aggregateTransactions` (format B). -/
def aggregateTransactionsEB (txs : List WFRecord) : Except String (List WFRecord) :=
  if txs = [] then .ok []
  else
    match txs.foldl stepEB (.ok initStateB) with
    | .ok s => (flushEB s).map AggStateB.result
    | .error e => .error e

/-! ## Format converter A (`convertTransactions`)

The `forEach` body has no cross-row state: each row appends to the three
output lists and each early `return` ends the row.  It is embedded as a pure
per-row function returning the triple of lists the row appends. -/

/-- Symbol determination of `convertTransactions` for a row that reached the
generic section: trades and dividends need an ISIN, other sides are cash. -/
def symbolForRowA (rowNumber : ℕ) (t : ScalableTransaction) (m : SymbolMap)
    (side : TVSide) : Except ConversionError String :=
  if side = .buy ∨ side = .sell ∨ side = .dividend then
    if t.isin = "" then
      if side = .dividend then .ok "$CASH"
      else .error ⟨rowNumber, "", t.description, "Missing ISIN for trade transaction"⟩
    else
      match lookupSymbolMap m t.isin with
      | some (some resolved) => .ok (getTradingViewSymbol resolved)
      | _ => .error ⟨rowNumber, t.isin, t.description, "Could not resolve ISIN to ticker symbol"⟩
  else .ok "$CASH"

/-- The generic tail of the `convertTransactions` loop body: symbol
resolution, value computation, zero-quantity skips and the final record. -/
def processRowATail (rowNumber : ℕ) (t : ScalableTransaction) (m : SymbolMap)
    (side : TVSide) :
    List TVRecord × List ConversionError × List SkippedTransaction :=
  match symbolForRowA rowNumber t m side with
  | .error e => ([], [e], [])
  | .ok symbol =>
    let fee := parseEuropeanNumber t.fee
    let tax := parseEuropeanNumber t.tax
    let commission := |fee| + |tax|
    let price := parseEuropeanNumber t.price
    let shares := |parseEuropeanNumber t.shares|
    let amount := |parseEuropeanNumber t.amount|
    let qty : ℚ :=
      if side = .buy ∨ side = .sell then shares
      else if side = .dividend then amount
      else if side = .deposit ∨ side = .withdrawal ∨ side = .taxesAndFees then amount
      else 0
    if qty ≤ 0 then
      if side = .dividend ∧ commission > 0 then
        ([], [], [⟨rowNumber, t.type, t.description,
          "Dividend fully withheld for tax (zero net amount)"⟩])
      else if side = .buy ∨ side = .sell then
        ([], [], [⟨rowNumber, t.type, t.description, "No shares/quantity specified"⟩])
      else
        ([], [], [⟨rowNumber, t.type, t.description, "Zero quantity/amount"⟩])
    else
      ([{ Symbol := symbol, Side := side, Qty := some qty,
          FillPrice := if price > 0 then some price else none,
          Commission := if commission > 0 then some commission else none,
          ClosingTime := formatDateTimeA t.date t.time }], [], [])

/-- The special-case section of the `convertTransactions` loop body: STORNO
reversals, `fee`-typed rows, interest settlements and standalone `taxes`
rows, falling through to the generic tail. -/
def processRowASpecial (rowNumber : ℕ) (t : ScalableTransaction) (m : SymbolMap)
    (side : TVSide) :
    List TVRecord × List ConversionError × List SkippedTransaction :=
  if isStornoTransaction t then
    if |parseEuropeanNumber t.amount| ≤ 0 then
      ([], [], [⟨rowNumber, t.type, t.description, "Zero amount STORNO transaction"⟩])
    else
      ([{ Symbol := "$CASH", Side := .deposit, Qty := some |parseEuropeanNumber t.amount|,
          FillPrice := none, Commission := none,
          ClosingTime := formatDateTimeA t.date t.time }], [], [])
  else if toLowerStr t.type = "fee" then
    if |parseEuropeanNumber t.amount| ≤ 0 then
      ([], [], [⟨rowNumber, t.type, t.description, "Zero fee amount"⟩])
    else
      ([{ Symbol := "$CASH",
          Side := if parseEuropeanNumber t.amount > 0 then .deposit else .taxesAndFees,
          Qty := some |parseEuropeanNumber t.amount|, FillPrice := none, Commission := none,
          ClosingTime := formatDateTimeA t.date t.time }], [], [])
  else if isInterestSettlementA t then
    if |parseEuropeanNumber t.tax| + |parseEuropeanNumber t.amount| ≤ 0 then
      ([], [], [⟨rowNumber, t.type, t.description, "Zero tax/fee amount in interest settlement"⟩])
    else
      ([{ Symbol := "$CASH", Side := .taxesAndFees,
          Qty := some (|parseEuropeanNumber t.tax| + |parseEuropeanNumber t.amount|),
          FillPrice := none, Commission := none,
          ClosingTime := formatDateTimeA t.date t.time }], [], [])
  else if toLowerStr t.type = "taxes" then
    if |parseEuropeanNumber t.amount| ≤ 0 then
      ([], [], [⟨rowNumber, t.type, t.description, "Zero tax amount"⟩])
    else
      ([{ Symbol := "$CASH", Side := .taxesAndFees, Qty := some |parseEuropeanNumber t.amount|,
          FillPrice := none, Commission := none,
          ClosingTime := formatDateTimeA t.date t.time }], [], [])
  else processRowATail rowNumber t m side

/-- The body of the `transactions.forEach` loop of `convertTransactions`:
what row `index` (0-based) appends to `(result, errors, skipped)`. -/
def processRowA (index : ℕ) (t : ScalableTransaction) (m : SymbolMap) :
    List TVRecord × List ConversionError × List SkippedTransaction :=
  if shouldSkipStatus t.status then
    ([], [], [⟨index + 2, t.type, t.description, "Status: " ++ t.status⟩])
  else if !isValidStatus t.status then
    ([], [], [⟨index + 2, t.type, t.description, "Unknown status: " ++ t.status⟩])
  else
    match mapTransactionTypeA t.type with
    | none => ([], [], [⟨index + 2, t.type, t.description, "Transaction type not supported"⟩])
    | some side => processRowASpecial (index + 2) t m side

/-- `convertTransactions`: fold the per-row outcomes over the input in
order, then optionally aggregate the record list. -/
def convertTransactions (transactions : List ScalableTransaction) (m : SymbolMap)
    (mode : ConversionMode) : ConversionResult :=
  let folded := transactions.enum.foldl
    (fun (acc : List TVRecord × List ConversionError × List SkippedTransaction) p =>
      let out := processRowA p.1 p.2 m
      (acc.1 ++ out.1, acc.2.1 ++ out.2.1, acc.2.2 ++ out.2.2))
    ([], [], [])
  { transactions := if mode = .aggregated then aggregateTransactionsA folded.1 else folded.1
    errors := folded.2.1
    skipped := folded.2.2 }

/-! ## Format converter B (`convertToWealthfolio`) -/

/-- `transaction.currency || 'EUR'`. -/
def currencyOf (t : ScalableTransaction) : String :=
  if t.currency = "" then "EUR" else t.currency

/-- Symbol determination of `convertToWealthfolio` for a row that reached
the generic section. -/
def symbolForRowB (rowNumber : ℕ) (t : ScalableTransaction) (m : SymbolMap)
    (activityType : WFActivity) : Except ConversionError String :=
  if activityType = .BUY ∨ activityType = .SELL ∨ activityType = .DIVIDEND then
    if t.isin = "" then
      if activityType = .DIVIDEND then .ok ("$CASH-" ++ currencyOf t)
      else .error ⟨rowNumber, "", t.description, "Missing ISIN for trade transaction"⟩
    else
      match lookupSymbolMap m t.isin with
      | some (some resolved) => .ok (convertToYahooSymbol resolved)
      | _ => .error ⟨rowNumber, t.isin, t.description, "Could not resolve ISIN to ticker symbol"⟩
  else if activityType = .INTEREST then .ok ("$CASH-" ++ currencyOf t)
  else .ok ("$CASH-" ++ currencyOf t)

/-- The generic tail of the `convertToWealthfolio` loop body. -/
def processRowBTail (rowNumber : ℕ) (t : ScalableTransaction) (m : SymbolMap)
    (activityType : WFActivity) :
    List WFRecord × List ConversionError × List SkippedTransaction :=
  match symbolForRowB rowNumber t m activityType with
  | .error e => ([], [e], [])
  | .ok symbol =>
    let fee := |parseEuropeanNumber t.fee|
    let tax := |parseEuropeanNumber t.tax|
    let totalFee := fee + tax
    let price := parseEuropeanNumber t.price
    let shares := |parseEuropeanNumber t.shares|
    let amount := |parseEuropeanNumber t.amount|
    let qup : ℚ × ℚ × ℚ :=
      if activityType = .BUY ∨ activityType = .SELL then
        (shares, price, shares * price)
      else if activityType = .DIVIDEND ∨ activityType = .INTEREST then
        (1, amount, amount)
      else if activityType = .DEPOSIT ∨ activityType = .WITHDRAWAL then
        (1, amount, amount)
      else (0, 0, 0)
    if qup.1 ≤ 0 ∨ (qup.2.1 ≤ 0 ∧ ¬(activityType = .BUY ∨ activityType = .SELL)) then
      if activityType = .DIVIDEND ∧ totalFee > 0 then
        ([], [], [⟨rowNumber, t.type, t.description,
          "Dividend fully withheld for tax (zero net amount)"⟩])
      else if (activityType = .BUY ∨ activityType = .SELL) ∧ shares ≤ 0 then
        ([], [], [⟨rowNumber, t.type, t.description, "No shares/quantity specified"⟩])
      else
        ([], [], [⟨rowNumber, t.type, t.description, "Zero quantity/amount"⟩])
    else
      ([{ date := formatDateTimeB t.date t.time, symbol := symbol,
          quantity := qup.1, activityType := activityType,
          unitPrice := if qup.2.1 > 0 then qup.2.1 else 0,
          currency := currencyOf t, fee := if totalFee > 0 then totalFee else 0,
          amount := if qup.2.2 > 0 then some qup.2.2 else none }], [], [])

/-- The special-case section of the `convertToWealthfolio` loop body. -/
def processRowBSpecial (rowNumber : ℕ) (t : ScalableTransaction) (m : SymbolMap)
    (activityType : WFActivity) :
    List WFRecord × List ConversionError × List SkippedTransaction :=
  if isStornoTransaction t then
    if |parseEuropeanNumber t.amount| ≤ 0 then
      ([], [], [⟨rowNumber, t.type, t.description, "Zero amount STORNO transaction"⟩])
    else
      ([{ date := formatDateTimeB t.date t.time, symbol := "$CASH-" ++ currencyOf t,
          quantity := 1, activityType := .DEPOSIT,
          unitPrice := |parseEuropeanNumber t.amount|,
          currency := currencyOf t, fee := 0,
          amount := some |parseEuropeanNumber t.amount| }], [], [])
  else if toLowerStr t.type = "fee" then
    if |parseEuropeanNumber t.amount| ≤ 0 then
      ([], [], [⟨rowNumber, t.type, t.description, "Zero fee amount"⟩])
    else
      ([{ date := formatDateTimeB t.date t.time, symbol := "$CASH-" ++ currencyOf t,
          quantity := 1,
          activityType := if parseEuropeanNumber t.amount > 0 then .DEPOSIT else .FEE,
          unitPrice := |parseEuropeanNumber t.amount|, currency := currencyOf t, fee := 0,
          amount := some |parseEuropeanNumber t.amount| }], [], [])
  else if isInterestSettlementB t then
    ((if |parseEuropeanNumber t.tax| > 0 then
        [{ date := formatDateTimeB t.date t.time, symbol := "$CASH-" ++ currencyOf t,
           quantity := 1, activityType := .TAX, unitPrice := |parseEuropeanNumber t.tax|,
           currency := currencyOf t, fee := 0,
           amount := some |parseEuropeanNumber t.tax| }]
      else []) ++
     (if |parseEuropeanNumber t.amount| > 0 then
        [{ date := formatDateTimeB t.date t.time, symbol := "$CASH-" ++ currencyOf t,
           quantity := 1, activityType := .FEE, unitPrice := |parseEuropeanNumber t.amount|,
           currency := currencyOf t, fee := 0,
           amount := some |parseEuropeanNumber t.amount| }]
      else []),
     [],
     if |parseEuropeanNumber t.tax| ≤ 0 ∧ |parseEuropeanNumber t.amount| ≤ 0 then
       [⟨rowNumber, t.type, t.description, "Zero tax/fee amount in interest settlement"⟩]
     else [])
  else if toLowerStr t.type = "taxes" then
    if |parseEuropeanNumber t.amount| ≤ 0 then
      ([], [], [⟨rowNumber, t.type, t.description, "Zero tax amount"⟩])
    else
      ([{ date := formatDateTimeB t.date t.time, symbol := "$CASH-" ++ currencyOf t,
          quantity := 1, activityType := .TAX, unitPrice := |parseEuropeanNumber t.amount|,
          currency := currencyOf t, fee := 0,
          amount := some |parseEuropeanNumber t.amount| }], [], [])
  else processRowBTail rowNumber t m activityType

/-- The body of the `transactions.forEach` loop of `convertToWealthfolio`:
what row `index` (0-based) appends to `(result, errors, skipped)`. -/
def processRowB (index : ℕ) (t : ScalableTransaction) (m : SymbolMap) :
    List WFRecord × List ConversionError × List SkippedTransaction :=
  if shouldSkipStatus t.status then
    ([], [], [⟨index + 2, t.type, t.description, "Status: " ++ t.status⟩])
  else if !isValidStatus t.status then
    ([], [], [⟨index + 2, t.type, t.description, "Unknown status: " ++ t.status⟩])
  else
    match mapTransactionTypeB t.type with
    | none => ([], [], [⟨index + 2, t.type, t.description, "Transaction type not supported"⟩])
    | some activityType => processRowBSpecial (index + 2) t m activityType

/-- `convertToWealthfolio`: fold the per-row outcomes over the input in
order, then optionally aggregate the record list. -/
def convertToWealthfolio (transactions : List ScalableTransaction) (m : SymbolMap)
    (mode : ConversionMode) : WealthfolioConversionResult :=
  let folded := transactions.enum.foldl
    (fun (acc : List WFRecord × List ConversionError × List SkippedTransaction) p =>
      let out := processRowB p.1 p.2 m
      (acc.1 ++ out.1, acc.2.1 ++ out.2.1, acc.2.2 ++ out.2.2))
    ([], [], [])
  { transactions := if mode = .aggregated then aggregateTransactionsB folded.1 else folded.1
    errors := folded.2.1
    skipped := folded.2.2 }

/-! ## The number-parsing precedence in the specification's own words

`parseLocaleNumberSpec` transcribes the spec/claim wording: "the last comma
becomes the decimal point" in the European branch and "treat the (single,
rightmost) dot as a decimal point" in the dots-only branch.  It is compared
against the source's `parseEuropeanNumber`, which substitutes the first
comma and leaves a dots-only string untouched. -/

/-- Replace the last occurrence of `c` by `d`. -/
def replaceLastChar (s : String) (c d : Char) : String :=
  ⟨(replaceFirstCharL c d s.data.reverse).reverse⟩

/-- Keep the first `'.'` of a reversed list, dropping every later one. -/
def dropDotsAfterFirstRev : List Char → List Char
  | [] => []
  | x :: xs =>
    if x = '.' then x :: xs.filter (fun y => y != '.')
    else x :: dropDotsAfterFirstRev xs

/-- Keep only the rightmost dot of a string, stripping the others. -/
def keepOnlyLastDot (s : String) : String :=
  ⟨(dropDotsAfterFirstRev s.data.reverse).reverse⟩

/-- The parsing precedence exactly as the specification words it. -/
def parseLocaleNumberSpec (value : String) : ℚ :=
  if trimStr value = "" then 0
  else
    let n := trimStr value
    let commaCount := countChar n ','
    let dotCount := countChar n '.'
    let lastComma := lastIndexOfC n ','
    let lastDot := lastIndexOfC n '.'
    let n2 :=
      if lastComma > lastDot then
        replaceLastChar (removeAllChar n '.') ',' '.'
      else if lastDot > lastComma ∧ commaCount > 0 then
        removeAllChar n ','
      else if commaCount = 1 ∧ dotCount = 0 then
        replaceFirstChar n ',' '.'
      else if dotCount > 0 ∧ commaCount = 0 then
        let parts := splitOnCharL '.' n.data
        if (parts.drop 1).all (fun part => part.length = 3) ∧ parts.length > 1 then
          removeAllChar n '.'
        else keepOnlyLastDot n
      else n
    parseFloatOr0 n2

/-! ## Claim-level predicates and concrete inputs -/

/-- A format A record that participates in trade grouping. -/
def isTradeRecA (r : TVRecord) : Prop :=
  r.Side = .buy ∨ r.Side = .sell

instance (r : TVRecord) : Decidable (isTradeRecA r) := by
  unfold isTradeRecA
  infer_instance

/-- `a` is a trade that the aggregator would group with an immediately
following `b`. -/
def clashA (a b : TVRecord) : Prop :=
  isTradeRecA a ∧ a.Symbol = b.Symbol ∧ a.Side = b.Side

instance (a b : TVRecord) : Decidable (clashA a b) := by
  unfold clashA
  infer_instance

/-- No two adjacent records of the list would be grouped (format A). -/
def NoAdjA (l : List TVRecord) : Prop :=
  l.Chain' (fun a b => ¬ clashA a b)

/-- A format B record that participates in trade grouping. -/
def isTradeRecB (r : WFRecord) : Prop :=
  r.activityType = .BUY ∨ r.activityType = .SELL

instance (r : WFRecord) : Decidable (isTradeRecB r) := by
  unfold isTradeRecB
  infer_instance

/-- `a` is a trade that the aggregator would group with an immediately
following `b` (format B). -/
def clashB (a b : WFRecord) : Prop :=
  isTradeRecB a ∧ a.symbol = b.symbol ∧ a.activityType = b.activityType

instance (a b : WFRecord) : Decidable (clashB a b) := by
  unfold clashB
  infer_instance

/-- No two adjacent records of the list would be grouped (format B). -/
def NoAdjB (l : List WFRecord) : Prop :=
  l.Chain' (fun a b => ¬ clashB a b)

/-- Spec §8 end-to-end sample row: an executed Buy of 10 shares at 25,50. -/
def tBuy : ScalableTransaction :=
  { date := "2024-01-15", time := "12:00", status := "Executed", reference := "ord1",
    description := "Kauf", assetType := "Security", type := "Buy", isin := "DE000TEST123",
    shares := "10", price := "25,50", amount := "-255,00", fee := "0,99", tax := "0,00",
    currency := "EUR" }

/-- Symbol map resolving the sample ISIN to XETR:4COP. -/
def mBuy : SymbolMap :=
  [("DE000TEST123", some { ticker := "4COP", exchange := "XETR", exchCode := "GR",
                           fullSymbol := "XETR:4COP" })]

/-- Spec §8 interest-settlement sample row: KKT-Abschluss with
amount −155,04 and tax 185,98. -/
def tKkt : ScalableTransaction :=
  { date := "2024-03-31", time := "", status := "Executed", reference := "",
    description := "KKT-Abschluss", assetType := "", type := "Interest", isin := "",
    shares := "", price := "", amount := "-155,04", fee := "", tax := "185,98",
    currency := "EUR" }

/-- An executed dividend row of 50 EUR without ISIN. -/
def tDiv : ScalableTransaction :=
  { date := "2024-02-01", time := "", status := "Executed", reference := "",
    description := "Dividende", assetType := "", type := "Dividend", isin := "",
    shares := "", price := "", amount := "50", fee := "", tax := "",
    currency := "EUR" }

/-- An executed Buy row with empty ISIN whose description carries a STORNO
marker. -/
def tStornoBuy : ScalableTransaction :=
  { date := "2024-02-02", time := "", status := "Executed", reference := "",
    description := "STORNO Kauf", assetType := "", type := "Buy", isin := "",
    shares := "2", price := "10", amount := "50", fee := "", tax := "",
    currency := "EUR" }

/-- An executed cancelled-status Buy row with empty ISIN. -/
def tCancelledBuy : ScalableTransaction :=
  { date := "2024-02-03", time := "", status := "Cancelled", reference := "",
    description := "Kauf", assetType := "", type := "Buy", isin := "",
    shares := "2", price := "10", amount := "50", fee := "", tax := "",
    currency := "EUR" }

/-- Format A trade record: `qty` units at `price`, for aggregation samples. -/
def tvBuy (qty price : ℚ) : TVRecord :=
  { Symbol := "XETR:AAA", Side := .buy, Qty := some qty, FillPrice := some price,
    Commission := none, ClosingTime := "2024-01-15 12:00:00" }

/-- Format A deposit record, for aggregation samples. -/
def tvDeposit : TVRecord :=
  { Symbol := "$CASH", Side := .deposit, Qty := some 100, FillPrice := none,
    Commission := none, ClosingTime := "2024-01-16 12:00:00" }

/-- Format B trade record: `qty` units at `price`, for aggregation samples. -/
def wfBuy (qty price : ℚ) : WFRecord :=
  { date := "2024-01-15T12:00:00.000Z", symbol := "AAA.DE", quantity := qty,
    activityType := .BUY, unitPrice := price, currency := "EUR", fee := 0,
    amount := some (qty * price) }

/-- Format B deposit record, for aggregation samples. -/
def wfDeposit : WFRecord :=
  { date := "2024-01-16T12:00:00.000Z", symbol := "$CASH-EUR", quantity := 1,
    activityType := .DEPOSIT, unitPrice := 100, currency := "EUR", fee := 0,
    amount := some 100 }

/-- An executed Buy row with empty ISIN and no STORNO marker. -/
def tBuyNoIsin : ScalableTransaction :=
  { date := "2024-02-04", time := "", status := "Executed", reference := "",
    description := "Kauf", assetType := "", type := "Buy", isin := "",
    shares := "2", price := "10", amount := "20", fee := "", tax := "",
    currency := "EUR" }

/-- A resolved symbol with a validated TradingView symbol. -/
def rsValidatedTV : ResolvedSymbol :=
  { ticker := "SAP", exchange := "XETRA", exchCode := "GR",
    fullSymbol := "XETR:SAP", tradingViewSymbol := some "SWB:SAP" }

/-- A resolved symbol whose validated TradingView symbol is the empty string. -/
def rsEmptyTV : ResolvedSymbol :=
  { ticker := "SAP", exchange := "XETRA", exchCode := "GR",
    fullSymbol := "XETR:SAP", tradingViewSymbol := some "" }

/-- A resolved symbol without a validated Yahoo symbol (suffix fallback). -/
def rsFallbackYahoo : ResolvedSymbol :=
  { ticker := "APC", exchange := "Gettex", exchCode := "GM",
    fullSymbol := "GETTEX:APC" }

/-! ## Helper lemmas on the string primitives -/

theorem lastIndexAux_eq_none_iff (l : List Char) (c : Char) :
    lastIndexAux l c = none ↔ c ∉ l := by
  induction l with
  | nil => simp [lastIndexAux]
  | cons x xs ih =>
    rw [lastIndexAux]
    cases h : lastIndexAux xs c with
    | some n =>
      simp only [List.mem_cons, not_or]
      constructor
      · intro hc
        exact Option.noConfusion hc
      · rintro ⟨-, h2⟩
        exact absurd (ih.mpr h2) (by rw [h]; exact fun hh => Option.noConfusion hh)
    | none =>
      have hxs : c ∉ xs := ih.mp h
      by_cases hx : x = c
      · subst hx
        simp
      · rw [if_neg hx]
        refine iff_of_true rfl ?_
        simp only [List.mem_cons, not_or]
        exact ⟨fun he => hx he.symm, hxs⟩

theorem countChar_eq_zero_iff (s : String) (c : Char) :
    countChar s c = 0 ↔ c ∉ s.data := by
  unfold countChar
  exact List.count_eq_zero

theorem lastIndexOfC_eq_neg_one_of_count_zero (s : String) (c : Char)
    (h : countChar s c = 0) : lastIndexOfC s c = -1 := by
  unfold lastIndexOfC
  rw [(lastIndexAux_eq_none_iff s.data c).mpr ((countChar_eq_zero_iff s c).mp h)]

theorem lastIndexOfC_nonneg_of_count_pos (s : String) (c : Char)
    (h : 0 < countChar s c) : 0 ≤ lastIndexOfC s c := by
  unfold lastIndexOfC
  cases hm : lastIndexAux s.data c with
  | some n => simp
  | none =>
    exfalso
    have := (lastIndexAux_eq_none_iff s.data c).mp hm
    rw [← countChar_eq_zero_iff s c] at this
    omega

theorem removeAllChar_of_count_zero (s : String) (c : Char)
    (h : countChar s c = 0) : removeAllChar s c = s := by
  unfold removeAllChar
  have hmem := (countChar_eq_zero_iff s c).mp h
  have : s.data.filter (fun x => x != c) = s.data := by
    apply List.filter_eq_self.mpr
    intro a ha
    simp only [bne_iff_ne, ne_eq, decide_eq_true_eq]
    exact fun he => hmem (he ▸ ha)
  rw [this]

theorem splitOnCharL_ne_nil (c : Char) (l : List Char) : splitOnCharL c l ≠ [] := by
  induction l with
  | nil => simp [splitOnCharL]
  | cons x xs ih =>
    rw [splitOnCharL]
    by_cases hx : x = c
    · simp [hx]
    · simp only [if_neg hx]
      cases h : splitOnCharL c xs with
      | nil => simp
      | cons a b => simp

theorem splitOnCharL_length (c : Char) (l : List Char) :
    (splitOnCharL c l).length = l.count c + 1 := by
  induction l with
  | nil => simp [splitOnCharL]
  | cons x xs ih =>
    rw [splitOnCharL]
    by_cases hx : x = c
    · rw [if_pos hx]
      simp only [List.length_cons, ih, List.count_cons]
      simp [hx]
    · rw [if_neg hx]
      cases h : splitOnCharL c xs with
      | nil => exact absurd h (splitOnCharL_ne_nil c xs)
      | cons a b =>
        rw [h] at ih
        simp only [List.length_cons] at ih ⊢
        rw [List.count_cons]
        simp only [beq_iff_eq]
        rw [if_neg hx]
        omega

/-! ## Branch-by-branch behaviour of `parseEuropeanNumber` -/

theorem outer_cond_false {s : String} (hne : trimStr s ≠ "") :
    ¬ (s = "" ∨ trimStr s = "") := by
  rintro (rfl | h2)
  · exact hne rfl
  · exact hne h2

theorem parse_branch_empty (s : String) (h : trimStr s = "") :
    parseEuropeanNumber s = 0 := by
  unfold parseEuropeanNumber
  rw [if_pos (Or.inr h)]

theorem parse_branch_euro (s : String) (hne : trimStr s ≠ "")
    (h : lastIndexOfC (trimStr s) ',' > lastIndexOfC (trimStr s) '.') :
    parseEuropeanNumber s =
      parseFloatOr0 (replaceFirstChar (removeAllChar (trimStr s) '.') ',' '.') := by
  unfold parseEuropeanNumber
  rw [if_neg (outer_cond_false hne)]
  dsimp only
  rw [if_pos h]

theorem parse_branch_us (s : String) (hne : trimStr s ≠ "")
    (h : lastIndexOfC (trimStr s) '.' > lastIndexOfC (trimStr s) ',')
    (hc : countChar (trimStr s) ',' > 0) :
    parseEuropeanNumber s = parseFloatOr0 (removeAllChar (trimStr s) ',') := by
  unfold parseEuropeanNumber
  rw [if_neg (outer_cond_false hne)]
  dsimp only
  rw [if_neg (lt_asymm h), if_pos ⟨h, hc⟩]

theorem parse_branch_comma (s : String) (hne : trimStr s ≠ "")
    (h1 : countChar (trimStr s) ',' = 1) (h2 : countChar (trimStr s) '.' = 0) :
    parseEuropeanNumber s = parseFloatOr0 (replaceFirstChar (trimStr s) ',' '.') := by
  have hdot : lastIndexOfC (trimStr s) '.' = -1 :=
    lastIndexOfC_eq_neg_one_of_count_zero _ _ h2
  have hcomma : 0 ≤ lastIndexOfC (trimStr s) ',' :=
    lastIndexOfC_nonneg_of_count_pos _ _ (by omega)
  have hgt : lastIndexOfC (trimStr s) ',' > lastIndexOfC (trimStr s) '.' := by
    rw [hdot]
    omega
  rw [parse_branch_euro s hne hgt, removeAllChar_of_count_zero _ _ h2]

theorem parse_branch_dots_thousand (s : String) (hne : trimStr s ≠ "")
    (hd : countChar (trimStr s) '.' > 0) (hc : countChar (trimStr s) ',' = 0)
    (hall : ((splitOnCharL '.' (trimStr s).data).drop 1).all
      (fun part => part.length = 3) = true) :
    parseEuropeanNumber s = parseFloatOr0 (removeAllChar (trimStr s) '.') := by
  have hcomma : lastIndexOfC (trimStr s) ',' = -1 :=
    lastIndexOfC_eq_neg_one_of_count_zero _ _ hc
  have hdot : 0 ≤ lastIndexOfC (trimStr s) '.' :=
    lastIndexOfC_nonneg_of_count_pos _ _ hd
  have hlen : (splitOnCharL '.' (trimStr s).data).length > 1 := by
    rw [splitOnCharL_length]
    unfold countChar at hd
    omega
  unfold parseEuropeanNumber
  rw [if_neg (outer_cond_false hne)]
  dsimp only
  rw [if_neg (by rw [hcomma]; omega)]
  rw [if_neg (by rintro ⟨-, hcc⟩; omega)]
  rw [if_neg (by rintro ⟨o1, -⟩; omega)]
  rw [if_pos ⟨hd, hc⟩]
  rw [if_pos ⟨hall, hlen⟩]

theorem parse_branch_dots_decimal (s : String) (hne : trimStr s ≠ "")
    (hd : countChar (trimStr s) '.' > 0) (hc : countChar (trimStr s) ',' = 0)
    (hall : ((splitOnCharL '.' (trimStr s).data).drop 1).all
      (fun part => part.length = 3) = false) :
    parseEuropeanNumber s = parseFloatOr0 (trimStr s) := by
  have hcomma : lastIndexOfC (trimStr s) ',' = -1 :=
    lastIndexOfC_eq_neg_one_of_count_zero _ _ hc
  have hdot : 0 ≤ lastIndexOfC (trimStr s) '.' :=
    lastIndexOfC_nonneg_of_count_pos _ _ hd
  unfold parseEuropeanNumber
  rw [if_neg (outer_cond_false hne)]
  dsimp only
  rw [if_neg (by rw [hcomma]; omega)]
  rw [if_neg (by rintro ⟨-, hcc⟩; omega)]
  rw [if_neg (by rintro ⟨o1, -⟩; omega)]
  rw [if_pos ⟨hd, hc⟩]
  rw [if_neg (by rintro ⟨hx, -⟩; rw [hall] at hx; exact Bool.noConfusion hx)]

/-! ## Claim C2 -/

/-- C2 counterexample: the code does not follow the claimed precedence.  On
`"1,2,3"` the code substitutes the FIRST comma (giving 1.2), while the claim
says the LAST comma becomes the decimal point (giving 1); on `"1.2.3"` the
code parses the string as-is (giving 1.2), while the claim keeps the
rightmost dot as the decimal point (giving 12.3). -/
theorem C2_parse_precedence_counterexample :
    parseEuropeanNumber "1,2,3" ≠ parseLocaleNumberSpec "1,2,3" ∧
    parseEuropeanNumber "1,2,3" = 6 / 5 ∧
    parseLocaleNumberSpec "1,2,3" = 1 ∧
    parseEuropeanNumber "1.2.3" ≠ parseLocaleNumberSpec "1.2.3" ∧
    parseEuropeanNumber "1.2.3" = 6 / 5 ∧
    parseLocaleNumberSpec "1.2.3" = 123 / 10 := by
  refine ⟨?_, ?_, ?_, ?_, ?_, ?_⟩ <;> with_unfolding_all decide

/-- C2 (amended): `parseEuropeanNumber` follows the stated precedence with
two corrections — in the European branch the FIRST comma becomes the decimal
point (dots stripped first), and in the dots-only non-thousands branch the
string is parsed as-is, so the first dot acts as the decimal point.  The five
quoted example values hold. -/
theorem C2_parse_precedence_amended :
    (∀ s : String, trimStr s = "" → parseEuropeanNumber s = 0) ∧
    (∀ s : String, trimStr s ≠ "" →
      lastIndexOfC (trimStr s) ',' > lastIndexOfC (trimStr s) '.' →
      parseEuropeanNumber s =
        parseFloatOr0 (replaceFirstChar (removeAllChar (trimStr s) '.') ',' '.')) ∧
    (∀ s : String, trimStr s ≠ "" →
      lastIndexOfC (trimStr s) '.' > lastIndexOfC (trimStr s) ',' →
      countChar (trimStr s) ',' > 0 →
      parseEuropeanNumber s = parseFloatOr0 (removeAllChar (trimStr s) ',')) ∧
    (∀ s : String, trimStr s ≠ "" →
      countChar (trimStr s) ',' = 1 → countChar (trimStr s) '.' = 0 →
      parseEuropeanNumber s = parseFloatOr0 (replaceFirstChar (trimStr s) ',' '.')) ∧
    (∀ s : String, trimStr s ≠ "" →
      countChar (trimStr s) '.' > 0 → countChar (trimStr s) ',' = 0 →
      ((splitOnCharL '.' (trimStr s).data).drop 1).all
        (fun part => part.length = 3) = true →
      parseEuropeanNumber s = parseFloatOr0 (removeAllChar (trimStr s) '.')) ∧
    (∀ s : String, trimStr s ≠ "" →
      countChar (trimStr s) '.' > 0 → countChar (trimStr s) ',' = 0 →
      ((splitOnCharL '.' (trimStr s).data).drop 1).all
        (fun part => part.length = 3) = false →
      parseEuropeanNumber s = parseFloatOr0 (trimStr s)) ∧
    parseEuropeanNumber "1.234,56" = 123456 / 100 ∧
    parseEuropeanNumber "1,234.56" = 123456 / 100 ∧
    parseEuropeanNumber "1.000" = 1000 ∧
    parseEuropeanNumber "25,50" = 51 / 2 ∧
    parseEuropeanNumber "" = 0 :=
  ⟨parse_branch_empty, parse_branch_euro, parse_branch_us, parse_branch_comma,
    parse_branch_dots_thousand, parse_branch_dots_decimal,
    by with_unfolding_all rfl, by with_unfolding_all rfl, by with_unfolding_all rfl,
    by with_unfolding_all rfl, by with_unfolding_all rfl⟩

/-- Witness for C2 (amended), instantiating the European branch at
`"1.234,56"` and the US branch at `"1,234.56"`. -/
theorem C2_parse_precedence_amended_witness :
    (trimStr "1.234,56" ≠ "" ∧
      lastIndexOfC (trimStr "1.234,56") ',' > lastIndexOfC (trimStr "1.234,56") '.' ∧
      parseEuropeanNumber "1.234,56" =
        parseFloatOr0 (replaceFirstChar (removeAllChar (trimStr "1.234,56") '.') ',' '.')) ∧
    (trimStr "1,234.56" ≠ "" ∧
      lastIndexOfC (trimStr "1,234.56") '.' > lastIndexOfC (trimStr "1,234.56") ',' ∧
      countChar (trimStr "1,234.56") ',' > 0 ∧
      parseEuropeanNumber "1,234.56" = parseFloatOr0 (removeAllChar (trimStr "1,234.56") ',')) :=
  ⟨⟨by decide, by decide,
      C2_parse_precedence_amended.2.1 "1.234,56" (by decide) (by decide)⟩,
    ⟨by decide, by decide, by decide,
      C2_parse_precedence_amended.2.2.1 "1,234.56" (by decide) (by decide) (by decide)⟩⟩

/-! ## Claim C8 -/

/-- C8: symbol derivation per target.  Format A returns the validated
TradingView symbol when present and non-empty, else `fullSymbol`; format B
returns the validated Yahoo symbol when present and non-empty, else the
ticker concatenated with the suffix for `exchCode`; the suffix table has
seven entries with the listed values and unrecognised codes default to
".DE"; an empty validated symbol falls through to the fallback. -/
theorem C8_symbol_derivation :
    (∀ r : ResolvedSymbol, ∀ s : String, r.tradingViewSymbol = some s → s ≠ "" →
      getTradingViewSymbol r = s) ∧
    (∀ r : ResolvedSymbol, r.tradingViewSymbol = none ∨ r.tradingViewSymbol = some "" →
      getTradingViewSymbol r = r.fullSymbol) ∧
    (∀ r : ResolvedSymbol, ∀ s : String, r.yahooSymbol = some s → s ≠ "" →
      convertToYahooSymbol r = s) ∧
    (∀ r : ResolvedSymbol, r.yahooSymbol = none ∨ r.yahooSymbol = some "" →
      convertToYahooSymbol r = r.ticker ++ suffixOrDefault r.exchCode) ∧
    YAHOO_FINANCE_SUFFIXES.length = 7 ∧
    suffixOrDefault "GR" = ".DE" ∧ suffixOrDefault "GF" = ".F" ∧
    suffixOrDefault "GM" = ".MU" ∧ suffixOrDefault "GT" = ".DE" ∧
    suffixOrDefault "GS" = ".SG" ∧ suffixOrDefault "GH" = ".HM" ∧
    suffixOrDefault "QT" = ".DE" ∧
    (∀ c : String, lookupSuffix c = none → suffixOrDefault c = ".DE") := by
  refine ⟨?_, ?_, ?_, ?_, by decide, by decide, by decide, by decide, by decide,
    by decide, by decide, by decide, ?_⟩
  · intro r s hs hne
    unfold getTradingViewSymbol
    rw [hs]
    simp [hne]
  · rintro r (h | h)
    · unfold getTradingViewSymbol
      rw [h]
    · unfold getTradingViewSymbol
      rw [h]
      simp
  · intro r s hs hne
    unfold convertToYahooSymbol
    rw [hs]
    simp [hne]
  · rintro r (h | h)
    · unfold convertToYahooSymbol
      rw [h]
    · unfold convertToYahooSymbol
      rw [h]
      simp
  · intro c hc
    unfold suffixOrDefault
    rw [hc]

/-! ## Claim C4 -/

theorem qtyV_mk (a : String) (b : TVSide) (c d e : Option ℚ) (f : String) :
    qtyV ⟨a, b, c, d, e, f⟩ = c.getD 0 := rfl

theorem priceV_mk (a : String) (b : TVSide) (c d e : Option ℚ) (f : String) :
    priceV ⟨a, b, c, d, e, f⟩ = d.getD 0 := rfl

theorem commV_mk (a : String) (b : TVSide) (c d e : Option ℚ) (f : String) :
    commV ⟨a, b, c, d, e, f⟩ = e.getD 0 := rfl

theorem mergeA_spec (g : List TVRecord)
    (hq : ∀ r ∈ g, 0 ≤ qtyV r) (hp : ∀ r ∈ g, 0 ≤ priceV r)
    (hc : ∀ r ∈ g, 0 ≤ commV r) :
    qtyV (mergeA g) = (g.map qtyV).sum ∧
    priceV (mergeA g) = (if (g.map qtyV).sum = 0 then 0
      else (g.map (fun tx => qtyV tx * priceV tx)).sum / (g.map qtyV).sum) ∧
    commV (mergeA g) = (g.map commV).sum ∧
    (mergeA g).ClosingTime = (g.getLastD default).ClosingTime ∧
    (mergeA g).Symbol = (g.headD default).Symbol ∧
    (mergeA g).Side = (g.headD default).Side := by
  have htq : 0 ≤ (g.map qtyV).sum := by
    apply List.sum_nonneg
    intro x hx
    obtain ⟨r, hr, rfl⟩ := List.mem_map.mp hx
    exact hq r hr
  have htv : 0 ≤ (g.map (fun tx => qtyV tx * priceV tx)).sum := by
    apply List.sum_nonneg
    intro x hx
    obtain ⟨r, hr, rfl⟩ := List.mem_map.mp hx
    exact mul_nonneg (hq r hr) (hp r hr)
  have htc : 0 ≤ (g.map commV).sum := by
    apply List.sum_nonneg
    intro x hx
    obtain ⟨r, hr, rfl⟩ := List.mem_map.mp hx
    exact hc r hr
  unfold mergeA
  dsimp only
  rw [qtyV_mk, priceV_mk, commV_mk]
  refine ⟨?_, ?_, ?_, rfl, rfl, rfl⟩
  · by_cases h : (g.map qtyV).sum > 0
    · rw [if_pos h, Option.getD_some]
    · rw [if_neg h, Option.getD_none]
      exact (le_antisymm (not_lt.mp h) htq).symm
  · by_cases h : (g.map qtyV).sum > 0
    · rw [if_pos h, if_neg (ne_of_gt h)]
      have havg : 0 ≤ (g.map (fun tx => qtyV tx * priceV tx)).sum / (g.map qtyV).sum :=
        div_nonneg htv htq
      by_cases h2 : (g.map (fun tx => qtyV tx * priceV tx)).sum / (g.map qtyV).sum > 0
      · rw [if_pos h2, Option.getD_some]
      · rw [if_neg h2, Option.getD_none]
        exact (le_antisymm (not_lt.mp h2) havg).symm
    · have hz : (g.map qtyV).sum = 0 := le_antisymm (not_lt.mp h) htq
      rw [if_neg h, if_pos hz]
      simp
  · by_cases h : (g.map commV).sum > 0
    · rw [if_pos h, Option.getD_some]
    · rw [if_neg h, Option.getD_none]
      exact (le_antisymm (not_lt.mp h) htc).symm

theorem mergeB_spec (g : List WFRecord)
    (hq : ∀ r ∈ g, 0 ≤ r.quantity) (hp : ∀ r ∈ g, 0 ≤ r.unitPrice)
    (hc : ∀ r ∈ g, 0 ≤ r.fee) :
    (mergeB g).quantity = (g.map (fun tx => tx.quantity)).sum ∧
    (mergeB g).unitPrice = (if (g.map (fun tx => tx.quantity)).sum = 0 then 0
      else (g.map (fun tx => tx.quantity * tx.unitPrice)).sum /
        (g.map (fun tx => tx.quantity)).sum) ∧
    (mergeB g).fee = (g.map (fun tx => tx.fee)).sum ∧
    (mergeB g).date = (g.getLastD default).date ∧
    (mergeB g).symbol = (g.headD default).symbol ∧
    (mergeB g).activityType = (g.headD default).activityType := by
  have htq : 0 ≤ (g.map (fun tx => tx.quantity)).sum := by
    apply List.sum_nonneg
    intro x hx
    obtain ⟨r, hr, rfl⟩ := List.mem_map.mp hx
    exact hq r hr
  have htv : 0 ≤ (g.map (fun tx => tx.quantity * tx.unitPrice)).sum := by
    apply List.sum_nonneg
    intro x hx
    obtain ⟨r, hr, rfl⟩ := List.mem_map.mp hx
    exact mul_nonneg (hq r hr) (hp r hr)
  have htc : 0 ≤ (g.map (fun tx => tx.fee)).sum := by
    apply List.sum_nonneg
    intro x hx
    obtain ⟨r, hr, rfl⟩ := List.mem_map.mp hx
    exact hc r hr
  unfold mergeB
  dsimp only
  refine ⟨?_, ?_, ?_, rfl, rfl, rfl⟩
  · by_cases h : (g.map (fun tx => tx.quantity)).sum > 0
    · rw [if_pos h]
    · rw [if_neg h]
      exact (le_antisymm (not_lt.mp h) htq).symm
  · by_cases h : (g.map (fun tx => tx.quantity)).sum > 0
    · rw [if_pos h, if_neg (ne_of_gt h)]
      have havg : 0 ≤ (g.map (fun tx => tx.quantity * tx.unitPrice)).sum /
          (g.map (fun tx => tx.quantity)).sum := div_nonneg htv htq
      by_cases h2 : (g.map (fun tx => tx.quantity * tx.unitPrice)).sum /
          (g.map (fun tx => tx.quantity)).sum > 0
      · rw [if_pos h2]
      · rw [if_neg h2]
        exact (le_antisymm (not_lt.mp h2) havg).symm
    · have hz : (g.map (fun tx => tx.quantity)).sum = 0 := le_antisymm (not_lt.mp h) htq
      rw [if_neg h, if_pos hz]
      simp
  · by_cases h : (g.map (fun tx => tx.fee)).sum > 0
    · rw [if_pos h]
    · rw [if_neg h]
      exact (le_antisymm (not_lt.mp h) htc).symm

/-- C4: on a group of two or more records (with the nonnegative quantities,
prices and fees that converted trade records carry), `aggregateGroup` merges
to a single record whose quantity is the sum of quantities, whose unit price
is the quantity-weighted average (0 when the total quantity is 0), whose
fee/commission is the sum of fees, whose timestamp is the last member's and
whose symbol/direction are the group's; a singleton group passes through
unchanged; in both formats.  Three buys of (10@5, 20@6, 30@7) merge to
quantity 60 at price 19/3. -/
theorem C4_weighted_average_merge :
    (∀ g : List TVRecord, 2 ≤ g.length →
      (∀ r ∈ g, 0 ≤ qtyV r) → (∀ r ∈ g, 0 ≤ priceV r) → (∀ r ∈ g, 0 ≤ commV r) →
      ∃ res, aggregateGroupA g = .ok res ∧
        qtyV res = (g.map qtyV).sum ∧
        priceV res = (if (g.map qtyV).sum = 0 then 0
          else (g.map (fun tx => qtyV tx * priceV tx)).sum / (g.map qtyV).sum) ∧
        commV res = (g.map commV).sum ∧
        res.ClosingTime = (g.getLastD default).ClosingTime ∧
        res.Symbol = (g.headD default).Symbol ∧
        res.Side = (g.headD default).Side) ∧
    (∀ r : TVRecord, aggregateGroupA [r] = .ok r) ∧
    (∀ g : List WFRecord, 2 ≤ g.length →
      (∀ r ∈ g, 0 ≤ r.quantity) → (∀ r ∈ g, 0 ≤ r.unitPrice) → (∀ r ∈ g, 0 ≤ r.fee) →
      ∃ res, aggregateGroupB g = .ok res ∧
        res.quantity = (g.map (fun tx => tx.quantity)).sum ∧
        res.unitPrice = (if (g.map (fun tx => tx.quantity)).sum = 0 then 0
          else (g.map (fun tx => tx.quantity * tx.unitPrice)).sum /
            (g.map (fun tx => tx.quantity)).sum) ∧
        res.fee = (g.map (fun tx => tx.fee)).sum ∧
        res.date = (g.getLastD default).date ∧
        res.symbol = (g.headD default).symbol ∧
        res.activityType = (g.headD default).activityType) ∧
    (∀ r : WFRecord, aggregateGroupB [r] = .ok r) ∧
    aggregateGroupA [tvBuy 10 5, tvBuy 20 6, tvBuy 30 7] =
      .ok { Symbol := "XETR:AAA", Side := .buy, Qty := some 60,
            FillPrice := some (19 / 3), Commission := none,
            ClosingTime := "2024-01-15 12:00:00" } := by
  refine ⟨?_, fun r => rfl, ?_, fun r => rfl, by with_unfolding_all rfl⟩
  · intro g hlen hq hp hc
    match g, hlen with
    | a :: b :: rest, _ =>
      exact ⟨mergeA (a :: b :: rest), rfl, mergeA_spec (a :: b :: rest) hq hp hc⟩
  · intro g hlen hq hp hc
    match g, hlen with
    | a :: b :: rest, _ =>
      exact ⟨mergeB (a :: b :: rest), rfl, mergeB_spec (a :: b :: rest) hq hp hc⟩

/-- Witness for C4 at the three-buy sample group. -/
theorem C4_weighted_average_merge_witness :
    ∃ res, aggregateGroupA [tvBuy 10 5, tvBuy 20 6, tvBuy 30 7] = .ok res ∧
      qtyV res = ([tvBuy 10 5, tvBuy 20 6, tvBuy 30 7].map qtyV).sum ∧
      priceV res = (if ([tvBuy 10 5, tvBuy 20 6, tvBuy 30 7].map qtyV).sum = 0 then 0
        else ([tvBuy 10 5, tvBuy 20 6, tvBuy 30 7].map
          (fun tx => qtyV tx * priceV tx)).sum /
          ([tvBuy 10 5, tvBuy 20 6, tvBuy 30 7].map qtyV).sum) ∧
      commV res = ([tvBuy 10 5, tvBuy 20 6, tvBuy 30 7].map commV).sum := by
  obtain ⟨res, h1, h2, h3, h4, -⟩ :=
    C4_weighted_average_merge.1 [tvBuy 10 5, tvBuy 20 6, tvBuy 30 7]
      (by decide)
      (by intro r hr; fin_cases hr <;> with_unfolding_all decide)
      (by intro r hr; fin_cases hr <;> with_unfolding_all decide)
      (by intro r hr; fin_cases hr <;> with_unfolding_all decide)
  exact ⟨res, h1, h2, h3, h4⟩

/-! ## Claim C9 -/

theorem flushEA_eq (s : AggStateA) : flushEA s = .ok (flushA s) := by
  obtain ⟨res, grp, sym, side⟩ := s
  cases grp with
  | nil => rfl
  | cons x xs =>
    cases xs with
    | nil => rfl
    | cons y rest => rfl

theorem stepEA_eq (s : AggStateA) (tx : TVRecord) :
    stepEA (.ok s) tx = .ok (stepA s tx) := by
  unfold stepEA stepA
  dsimp only
  by_cases h1 : tx.Side = .buy ∨ tx.Side = .sell
  · rw [if_pos h1, if_pos h1]
    by_cases h2 : s.curSym = some tx.Symbol ∧ s.curSide = some tx.Side
    · rw [if_pos h2, if_pos h2]
    · rw [if_neg h2, if_neg h2, flushEA_eq]
  · rw [if_neg h1, if_neg h1, flushEA_eq]

theorem foldEA_eq (txs : List TVRecord) :
    ∀ s, txs.foldl stepEA (.ok s) = .ok (txs.foldl stepA s) := by
  induction txs with
  | nil =>
    intro s
    rfl
  | cons tx rest ih =>
    intro s
    rw [List.foldl_cons, List.foldl_cons, stepEA_eq, ih]

theorem flushEB_eq (s : AggStateB) : flushEB s = .ok (flushB s) := by
  obtain ⟨res, grp, sym, side⟩ := s
  cases grp with
  | nil => rfl
  | cons x xs =>
    cases xs with
    | nil => rfl
    | cons y rest => rfl

theorem stepEB_eq (s : AggStateB) (tx : WFRecord) :
    stepEB (.ok s) tx = .ok (stepB s tx) := by
  unfold stepEB stepB
  dsimp only
  by_cases h1 : tx.activityType = .BUY ∨ tx.activityType = .SELL
  · rw [if_pos h1, if_pos h1]
    by_cases h2 : s.curSym = some tx.symbol ∧ s.curType = some tx.activityType
    · rw [if_pos h2, if_pos h2]
    · rw [if_neg h2, if_neg h2, flushEB_eq]
  · rw [if_neg h1, if_neg h1, flushEB_eq]

theorem foldEB_eq (txs : List WFRecord) :
    ∀ s, txs.foldl stepEB (.ok s) = .ok (txs.foldl stepB s) := by
  induction txs with
  | nil =>
    intro s
    rfl
  | cons tx rest ih =>
    intro s
    rw [List.foldl_cons, List.foldl_cons, stepEB_eq, ih]

/-- C9: `aggregateGroup` raises "Cannot aggregate empty group" exactly on
the empty group, and the error is unreachable from `aggregateTransactions`:
with the exception propagated faithfully, the whole pass still returns
exactly the plain result for every input, in both formats. -/
theorem C9_empty_group_error_unreachable :
    aggregateGroupA [] = .error "Cannot aggregate empty group" ∧
    aggregateGroupB [] = .error "Cannot aggregate empty group" ∧
    (∀ g : List TVRecord, g ≠ [] → ∃ r, aggregateGroupA g = .ok r) ∧
    (∀ g : List WFRecord, g ≠ [] → ∃ r, aggregateGroupB g = .ok r) ∧
    (∀ txs : List TVRecord, aggregateTransactionsEA txs = .ok (aggregateTransactionsA txs)) ∧
    (∀ txs : List WFRecord, aggregateTransactionsEB txs = .ok (aggregateTransactionsB txs)) := by
  refine ⟨rfl, rfl, ?_, ?_, ?_, ?_⟩
  · intro g hg
    match g with
    | [x] => exact ⟨x, rfl⟩
    | x :: y :: rest => exact ⟨mergeA (x :: y :: rest), rfl⟩
  · intro g hg
    match g with
    | [x] => exact ⟨x, rfl⟩
    | x :: y :: rest => exact ⟨mergeB (x :: y :: rest), rfl⟩
  · intro txs
    unfold aggregateTransactionsEA aggregateTransactionsA
    by_cases h : txs = []
    · rw [if_pos h, if_pos h]
    · rw [if_neg h, if_neg h, foldEA_eq]
      dsimp only
      rw [flushEA_eq]
      rfl
  · intro txs
    unfold aggregateTransactionsEB aggregateTransactionsB
    by_cases h : txs = []
    · rw [if_pos h, if_pos h]
    · rw [if_neg h, if_neg h, foldEB_eq]
      dsimp only
      rw [flushEB_eq]
      rfl

/-- Witness for C9 at a concrete nonempty group and record list. -/
theorem C9_empty_group_error_unreachable_witness :
    (∃ r, aggregateGroupA [tvBuy 10 5] = .ok r) ∧
    aggregateTransactionsEA [tvBuy 10 5, tvDeposit] =
      .ok (aggregateTransactionsA [tvBuy 10 5, tvDeposit]) :=
  ⟨C9_empty_group_error_unreachable.2.2.1 [tvBuy 10 5] (by decide),
    C9_empty_group_error_unreachable.2.2.2.2.1 [tvBuy 10 5, tvDeposit]⟩

/-! ## Claim C5 -/

theorem flushA_group (s : AggStateA) : (flushA s).group = [] := by
  obtain ⟨res, grp, sym, side⟩ := s
  cases grp with
  | nil => rfl
  | cons x xs =>
    cases xs with
    | nil => rfl
    | cons y rest => rfl

theorem stepA_nonTrade (s : AggStateA) (d : TVRecord) (hd : ¬ isTradeRecA d) :
    stepA s d = ⟨(flushA s).result ++ [d], [], none, none⟩ := by
  unfold isTradeRecA at hd
  unfold stepA
  rw [if_neg hd]
  obtain ⟨res, grp, sym, side⟩ := s
  cases grp with
  | nil => rfl
  | cons x xs =>
    cases xs with
    | nil => rfl
    | cons y rest => rfl

theorem stepA_newGroup (s : AggStateA) (tx : TVRecord) (ht : isTradeRecA tx)
    (hm : ¬ (s.curSym = some tx.Symbol ∧ s.curSide = some tx.Side)) :
    stepA s tx = ⟨(flushA s).result, [tx], some tx.Symbol, some tx.Side⟩ := by
  unfold isTradeRecA at ht
  unfold stepA
  rw [if_pos ht, if_neg hm]

theorem flushA_shift (r : List TVRecord) (s : AggStateA) :
    flushA ⟨r ++ s.result, s.group, s.curSym, s.curSide⟩ =
      ⟨r ++ (flushA s).result, (flushA s).group, (flushA s).curSym, (flushA s).curSide⟩ := by
  obtain ⟨res, grp, sym, side⟩ := s
  cases grp with
  | nil => rfl
  | cons x xs =>
    cases xs with
    | nil =>
      simp only [flushA, List.append_assoc]
    | cons y rest =>
      simp only [flushA, List.append_assoc]

theorem stepA_shift (r : List TVRecord) (s : AggStateA) (tx : TVRecord) :
    stepA ⟨r ++ s.result, s.group, s.curSym, s.curSide⟩ tx =
      ⟨r ++ (stepA s tx).result, (stepA s tx).group,
        (stepA s tx).curSym, (stepA s tx).curSide⟩ := by
  unfold stepA
  dsimp only
  by_cases h1 : tx.Side = .buy ∨ tx.Side = .sell
  · rw [if_pos h1, if_pos h1]
    by_cases h2 : s.curSym = some tx.Symbol ∧ s.curSide = some tx.Side
    · rw [if_pos h2, if_pos h2]
    · rw [if_neg h2, if_neg h2, flushA_shift]
  · rw [if_neg h1, if_neg h1, flushA_shift]
    dsimp only
    rw [List.append_assoc]

theorem runA_shift (txs : List TVRecord) :
    ∀ (s : AggStateA) (r : List TVRecord),
      runA ⟨r ++ s.result, s.group, s.curSym, s.curSide⟩ txs =
        ⟨r ++ (runA s txs).result, (runA s txs).group,
          (runA s txs).curSym, (runA s txs).curSide⟩ := by
  induction txs with
  | nil =>
    intro s r
    rfl
  | cons tx rest ih =>
    intro s r
    show runA (stepA ⟨r ++ s.result, s.group, s.curSym, s.curSide⟩ tx) rest = _
    rw [stepA_shift, ih (stepA s tx) r]
    rfl

theorem aggA_eq_flush_run (txs : List TVRecord) :
    aggregateTransactionsA txs = (flushA (runA initStateA txs)).result := by
  unfold aggregateTransactionsA
  by_cases h : txs = []
  · rw [if_pos h, h]
    rfl
  · rw [if_neg h]

theorem aggA_split (xs ys : List TVRecord) (d : TVRecord) (hd : ¬ isTradeRecA d) :
    aggregateTransactionsA (xs ++ d :: ys) =
      aggregateTransactionsA xs ++ d :: aggregateTransactionsA ys := by
  rw [aggA_eq_flush_run, aggA_eq_flush_run, aggA_eq_flush_run]
  have h1 : runA initStateA (xs ++ d :: ys) =
      runA (stepA (runA initStateA xs) d) ys := by
    unfold runA
    rw [List.foldl_append, List.foldl_cons]
  rw [h1, stepA_nonTrade _ _ hd]
  have h2 : (⟨(flushA (runA initStateA xs)).result ++ [d], [], none, none⟩ : AggStateA) =
      ⟨((flushA (runA initStateA xs)).result ++ [d]) ++ initStateA.result,
        initStateA.group, initStateA.curSym, initStateA.curSide⟩ := by
    simp [initStateA]
  rw [h2, runA_shift ys initStateA, flushA_shift]
  simp

theorem flushB_group (s : AggStateB) : (flushB s).group = [] := by
  obtain ⟨res, grp, sym, side⟩ := s
  cases grp with
  | nil => rfl
  | cons x xs =>
    cases xs with
    | nil => rfl
    | cons y rest => rfl

theorem stepB_nonTrade (s : AggStateB) (d : WFRecord) (hd : ¬ isTradeRecB d) :
    stepB s d = ⟨(flushB s).result ++ [d], [], none, none⟩ := by
  unfold isTradeRecB at hd
  unfold stepB
  rw [if_neg hd]
  obtain ⟨res, grp, sym, side⟩ := s
  cases grp with
  | nil => rfl
  | cons x xs =>
    cases xs with
    | nil => rfl
    | cons y rest => rfl

theorem stepB_newGroup (s : AggStateB) (tx : WFRecord) (ht : isTradeRecB tx)
    (hm : ¬ (s.curSym = some tx.symbol ∧ s.curType = some tx.activityType)) :
    stepB s tx = ⟨(flushB s).result, [tx], some tx.symbol, some tx.activityType⟩ := by
  unfold isTradeRecB at ht
  unfold stepB
  rw [if_pos ht, if_neg hm]

theorem flushB_shift (r : List WFRecord) (s : AggStateB) :
    flushB ⟨r ++ s.result, s.group, s.curSym, s.curType⟩ =
      ⟨r ++ (flushB s).result, (flushB s).group, (flushB s).curSym, (flushB s).curType⟩ := by
  obtain ⟨res, grp, sym, side⟩ := s
  cases grp with
  | nil => rfl
  | cons x xs =>
    cases xs with
    | nil =>
      simp only [flushB, List.append_assoc]
    | cons y rest =>
      simp only [flushB, List.append_assoc]

theorem stepB_shift (r : List WFRecord) (s : AggStateB) (tx : WFRecord) :
    stepB ⟨r ++ s.result, s.group, s.curSym, s.curType⟩ tx =
      ⟨r ++ (stepB s tx).result, (stepB s tx).group,
        (stepB s tx).curSym, (stepB s tx).curType⟩ := by
  unfold stepB
  dsimp only
  by_cases h1 : tx.activityType = .BUY ∨ tx.activityType = .SELL
  · rw [if_pos h1, if_pos h1]
    by_cases h2 : s.curSym = some tx.symbol ∧ s.curType = some tx.activityType
    · rw [if_pos h2, if_pos h2]
    · rw [if_neg h2, if_neg h2, flushB_shift]
  · rw [if_neg h1, if_neg h1, flushB_shift]
    dsimp only
    rw [List.append_assoc]

theorem runB_shift (txs : List WFRecord) :
    ∀ (s : AggStateB) (r : List WFRecord),
      runB ⟨r ++ s.result, s.group, s.curSym, s.curType⟩ txs =
        ⟨r ++ (runB s txs).result, (runB s txs).group,
          (runB s txs).curSym, (runB s txs).curType⟩ := by
  induction txs with
  | nil =>
    intro s r
    rfl
  | cons tx rest ih =>
    intro s r
    show runB (stepB ⟨r ++ s.result, s.group, s.curSym, s.curType⟩ tx) rest = _
    rw [stepB_shift, ih (stepB s tx) r]
    rfl

theorem aggB_eq_flush_run (txs : List WFRecord) :
    aggregateTransactionsB txs = (flushB (runB initStateB txs)).result := by
  unfold aggregateTransactionsB
  by_cases h : txs = []
  · rw [if_pos h, h]
    rfl
  · rw [if_neg h]

theorem aggB_split (xs ys : List WFRecord) (d : WFRecord) (hd : ¬ isTradeRecB d) :
    aggregateTransactionsB (xs ++ d :: ys) =
      aggregateTransactionsB xs ++ d :: aggregateTransactionsB ys := by
  rw [aggB_eq_flush_run, aggB_eq_flush_run, aggB_eq_flush_run]
  have h1 : runB initStateB (xs ++ d :: ys) =
      runB (stepB (runB initStateB xs) d) ys := by
    unfold runB
    rw [List.foldl_append, List.foldl_cons]
  rw [h1, stepB_nonTrade _ _ hd]
  have h2 : (⟨(flushB (runB initStateB xs)).result ++ [d], [], none, none⟩ : AggStateB) =
      ⟨((flushB (runB initStateB xs)).result ++ [d]) ++ initStateB.result,
        initStateB.group, initStateB.curSym, initStateB.curType⟩ := by
    simp [initStateB]
  rw [h2, runB_shift ys initStateB, flushB_shift]
  simp

/-- C5: a record whose activity type is not BUY/SELL always flushes the
current group, is emitted unchanged in its original position and resets the
group state (so aggregation splits around it); a trade with a different
symbol or direction flushes the group and starts a fresh one; a Buy,
Deposit, Buy sequence on one symbol yields 3 output records, in both
formats. -/
theorem C5_non_trade_resets_grouping :
    (∀ xs ys : List TVRecord, ∀ d : TVRecord, ¬ isTradeRecA d →
      aggregateTransactionsA (xs ++ d :: ys) =
        aggregateTransactionsA xs ++ d :: aggregateTransactionsA ys) ∧
    (∀ s : AggStateA, ∀ d : TVRecord, ¬ isTradeRecA d →
      stepA s d = ⟨(flushA s).result ++ [d], [], none, none⟩) ∧
    (∀ s : AggStateA, ∀ tx : TVRecord, isTradeRecA tx →
      ¬ (s.curSym = some tx.Symbol ∧ s.curSide = some tx.Side) →
      stepA s tx = ⟨(flushA s).result, [tx], some tx.Symbol, some tx.Side⟩) ∧
    (∀ xs ys : List WFRecord, ∀ d : WFRecord, ¬ isTradeRecB d →
      aggregateTransactionsB (xs ++ d :: ys) =
        aggregateTransactionsB xs ++ d :: aggregateTransactionsB ys) ∧
    (∀ s : AggStateB, ∀ d : WFRecord, ¬ isTradeRecB d →
      stepB s d = ⟨(flushB s).result ++ [d], [], none, none⟩) ∧
    (∀ s : AggStateB, ∀ tx : WFRecord, isTradeRecB tx →
      ¬ (s.curSym = some tx.symbol ∧ s.curType = some tx.activityType) →
      stepB s tx = ⟨(flushB s).result, [tx], some tx.symbol, some tx.activityType⟩) ∧
    aggregateTransactionsA [tvBuy 10 5, tvDeposit, tvBuy 20 6] =
      [tvBuy 10 5, tvDeposit, tvBuy 20 6] ∧
    aggregateTransactionsB [wfBuy 10 5, wfDeposit, wfBuy 20 6] =
      [wfBuy 10 5, wfDeposit, wfBuy 20 6] :=
  ⟨aggA_split, stepA_nonTrade, stepA_newGroup, aggB_split, stepB_nonTrade, stepB_newGroup,
    by with_unfolding_all rfl, by with_unfolding_all rfl⟩

/-- Witness for C5: the split law applied around the concrete deposit. -/
theorem C5_non_trade_resets_grouping_witness :
    ¬ isTradeRecA tvDeposit ∧
    aggregateTransactionsA ([tvBuy 10 5] ++ tvDeposit :: [tvBuy 20 6]) =
      aggregateTransactionsA [tvBuy 10 5] ++ tvDeposit ::
        aggregateTransactionsA [tvBuy 20 6] :=
  ⟨by decide, C5_non_trade_resets_grouping.1 [tvBuy 10 5] [tvBuy 20 6] tvDeposit (by decide)⟩

/-! ## Claim C10, format A machinery -/

theorem flushA_of_group_nil (s : AggStateA) (h : s.group = []) : flushA s = s := by
  obtain ⟨res, grp, sym, side⟩ := s
  dsimp only at h
  subst h
  rfl

theorem flushA_of_group_singleton (s : AggStateA) (g0 : TVRecord) (h : s.group = [g0]) :
    flushA s = ⟨s.result ++ [g0], [], s.curSym, s.curSide⟩ := by
  obtain ⟨res, grp, sym, side⟩ := s
  dsimp only at h
  subst h
  rfl

theorem flushA_result_cases (s : AggStateA) (h : s.group ≠ []) :
    ∃ fr h0, s.group.head? = some h0 ∧ fr.Symbol = h0.Symbol ∧ fr.Side = h0.Side ∧
      (flushA s).result = s.result ++ [fr] := by
  obtain ⟨res, grp, sym, side⟩ := s
  dsimp only at h
  match grp, h with
  | [x], _ => exact ⟨x, x, rfl, rfl, rfl, rfl⟩
  | x :: y :: rest, _ => exact ⟨mergeA (x :: y :: rest), x, rfl, rfl, rfl, rfl⟩

theorem mem_of_head?_eq {α : Type} {l : List α} {a : α} (h : l.head? = some a) :
    a ∈ l := by
  cases l with
  | nil => exact Option.noConfusion h
  | cons x t =>
    simp only [List.head?_cons, Option.some.injEq] at h
    subst h
    exact List.mem_cons_self x t

theorem noAdjA_append_nonTrade (l : List TVRecord) (d : TVRecord)
    (hl : NoAdjA l) (hd : ¬ isTradeRecA d) : NoAdjA (l ++ [d]) := by
  unfold NoAdjA at hl ⊢
  rw [List.chain'_append]
  refine ⟨hl, List.chain'_singleton d, ?_⟩
  intro x hx y hy
  simp only [List.head?_cons, Option.mem_def, Option.some.injEq] at hy
  subst hy
  rintro ⟨hxt, -, hside⟩
  apply hd
  unfold isTradeRecA at hxt ⊢
  rw [← hside]
  exact hxt

theorem flushA_noAdj (s : AggStateA)
    (hmem : ∀ g ∈ s.group, isTradeRecA g ∧ s.curSym = some g.Symbol ∧
      s.curSide = some g.Side)
    (hres : NoAdjA s.result)
    (hlast : s.group ≠ [] → ∀ L, s.result.getLast? = some L →
      ¬ (isTradeRecA L ∧ some L.Symbol = s.curSym ∧ some L.Side = s.curSide)) :
    NoAdjA ((flushA s).result) := by
  by_cases hg : s.group = []
  · rw [flushA_of_group_nil s hg]
    exact hres
  · obtain ⟨fr, h0, hhead, hsym, hside, hres2⟩ := flushA_result_cases s hg
    rw [hres2]
    have h0mem : h0 ∈ s.group := mem_of_head?_eq hhead
    obtain ⟨htr, hcs, hcs2⟩ := hmem h0 h0mem
    unfold NoAdjA at hres ⊢
    rw [List.chain'_append]
    refine ⟨hres, List.chain'_singleton fr, ?_⟩
    intro x hx y hy
    simp only [List.head?_cons, Option.mem_def, Option.some.injEq] at hy
    subst hy
    rintro ⟨hxt, hxs, hxside⟩
    refine hlast hg x (by rwa [Option.mem_def] at hx) ⟨hxt, ?_, ?_⟩
    · rw [hxs, hsym, hcs]
    · rw [hxside, hside, hcs2]

theorem runA_noAdj (txs : List TVRecord) :
    ∀ s : AggStateA,
      (∀ g ∈ s.group, isTradeRecA g ∧ s.curSym = some g.Symbol ∧
        s.curSide = some g.Side) →
      NoAdjA s.result →
      (s.group = [] → s.curSym = none ∧ s.curSide = none ∧
        ∀ L, s.result.getLast? = some L → ¬ isTradeRecA L) →
      (s.group ≠ [] → ∀ L, s.result.getLast? = some L →
        ¬ (isTradeRecA L ∧ some L.Symbol = s.curSym ∧ some L.Side = s.curSide)) →
      NoAdjA ((flushA (runA s txs)).result) := by
  induction txs with
  | nil =>
    intro s hmem hres hempty hne
    exact flushA_noAdj s hmem hres hne
  | cons tx rest ih =>
    intro s hmem hres hempty hne
    show NoAdjA ((flushA (runA (stepA s tx) rest)).result)
    by_cases h1 : isTradeRecA tx
    · by_cases h2 : s.curSym = some tx.Symbol ∧ s.curSide = some tx.Side
      · -- tx joins the current group
        have hgne : s.group ≠ [] := by
          intro hg
          obtain ⟨hsym, -, -⟩ := hempty hg
          rw [hsym] at h2
          exact Option.noConfusion h2.1
        have hstep : stepA s tx = { s with group := s.group ++ [tx] } := by
          unfold stepA
          rw [if_pos (by unfold isTradeRecA at h1; exact h1), if_pos h2]
        rw [hstep]
        apply ih
        · intro g hg
          rcases List.mem_append.mp hg with hg | hg
          · exact hmem g hg
          · simp only [List.mem_singleton] at hg
            subst hg
            exact ⟨h1, h2.1, h2.2⟩
        · exact hres
        · intro hg
          exact absurd (List.append_eq_nil.mp hg).1 hgne
        · intro _ L hL
          exact hne hgne L hL
      · -- tx starts a new group after a flush
        rw [stepA_newGroup s tx h1 h2]
        apply ih
        · intro g hg
          simp only [List.mem_singleton] at hg
          subst hg
          exact ⟨h1, rfl, rfl⟩
        · exact flushA_noAdj s hmem hres hne
        · intro hg
          exact absurd hg (by simp)
        · intro _ L hL
          by_cases hg : s.group = []
          · rw [flushA_of_group_nil s hg] at hL
            obtain ⟨-, -, hlast⟩ := hempty hg
            rintro ⟨hLt, -, -⟩
            exact hlast L hL hLt
          · obtain ⟨fr, h0, hhead, hsym, hside, hres2⟩ := flushA_result_cases s hg
            rw [hres2, List.getLast?_concat, Option.some.injEq] at hL
            subst hL
            have h0mem : h0 ∈ s.group := mem_of_head?_eq hhead
            obtain ⟨htr, hcs, hcs2⟩ := hmem h0 h0mem
            rintro ⟨-, hfs, hfside⟩
            apply h2
            constructor
            · rw [hcs, ← hsym, hfs]
            · rw [hcs2, ← hside, hfside]
    · -- non-trade record: flush, emit, reset
      rw [stepA_nonTrade s tx h1]
      apply ih
      · intro g hg
        exact absurd hg (List.not_mem_nil g)
      · exact noAdjA_append_nonTrade _ tx (flushA_noAdj s hmem hres hne) h1
      · intro _
        refine ⟨rfl, rfl, ?_⟩
        intro L hL
        rw [List.getLast?_concat, Option.some.injEq] at hL
        subst hL
        exact h1
      · intro hg
        exact absurd rfl hg

theorem aggA_noAdj (l : List TVRecord) : NoAdjA (aggregateTransactionsA l) := by
  rw [aggA_eq_flush_run]
  apply runA_noAdj l initStateA
  · intro g hg
    exact absurd hg (List.not_mem_nil g)
  · exact List.chain'_nil
  · intro _
    refine ⟨rfl, rfl, ?_⟩
    intro L hL
    exact Option.noConfusion hL
  · intro hg
    exact absurd rfl hg

theorem runA_id (rest : List TVRecord) :
    ∀ s : AggStateA,
      (s.group = [] ∧ s.curSym = none ∧ s.curSide = none ∨
        ∃ g0, s.group = [g0] ∧ isTradeRecA g0 ∧ s.curSym = some g0.Symbol ∧
          s.curSide = some g0.Side) →
      NoAdjA (s.group ++ rest) →
      (flushA (runA s rest)).result = s.result ++ s.group ++ rest := by
  induction rest with
  | nil =>
    intro s hinv hna
    rcases hinv with ⟨hg, -, -⟩ | ⟨g0, hg, -, -, -⟩
    · rw [show runA s [] = s from rfl, flushA_of_group_nil s hg, hg]
      simp
    · rw [show runA s [] = s from rfl, flushA_of_group_singleton s g0 hg, hg]
      simp
  | cons tx rest ih =>
    intro s hinv hna
    show (flushA (runA (stepA s tx) rest)).result = _
    by_cases h1 : isTradeRecA tx
    · rcases hinv with ⟨hg, hsym, hside⟩ | ⟨g0, hg, hg0t, hsym, hside⟩
      · -- empty group: tx starts a new group
        have hm : ¬ (s.curSym = some tx.Symbol ∧ s.curSide = some tx.Side) := by
          rintro ⟨hc, -⟩
          rw [hsym] at hc
          exact Option.noConfusion hc
        rw [stepA_newGroup s tx h1 hm, flushA_of_group_nil s hg]
        have ihres := ih ⟨s.result, [tx], some tx.Symbol, some tx.Side⟩
          (Or.inr ⟨tx, rfl, h1, rfl, rfl⟩)
          (by rw [hg] at hna; exact hna)
        rw [ihres]
        rw [hg]
        simp
      · -- singleton group [g0]: NoAdj forces a mismatch, so flush then restart
        have hclash : ¬ clashA g0 tx := by
          rw [hg] at hna
          unfold NoAdjA at hna
          exact (List.chain'_cons.mp hna).1
        have hm : ¬ (s.curSym = some tx.Symbol ∧ s.curSide = some tx.Side) := by
          rintro ⟨hc, hc2⟩
          rw [hsym, Option.some.injEq] at hc
          rw [hside, Option.some.injEq] at hc2
          exact hclash ⟨hg0t, hc, hc2⟩
        rw [stepA_newGroup s tx h1 hm, flushA_of_group_singleton s g0 hg]
        have ihres := ih ⟨s.result ++ [g0], [tx], some tx.Symbol, some tx.Side⟩
          (Or.inr ⟨tx, rfl, h1, rfl, rfl⟩)
          (by rw [hg] at hna; unfold NoAdjA at hna ⊢; exact hna.tail)
        rw [ihres, hg]
        simp
    · -- non-trade record
      rcases hinv with ⟨hg, -, -⟩ | ⟨g0, hg, -, -, -⟩
      · rw [stepA_nonTrade s tx h1, flushA_of_group_nil s hg]
        have ihres := ih ⟨s.result ++ [tx], [], none, none⟩
          (Or.inl ⟨rfl, rfl, rfl⟩)
          (by rw [hg] at hna; unfold NoAdjA at hna ⊢; exact hna.tail)
        rw [ihres, hg]
        simp
      · rw [stepA_nonTrade s tx h1, flushA_of_group_singleton s g0 hg]
        have ihres := ih ⟨(s.result ++ [g0]) ++ [tx], [], none, none⟩
          (Or.inl ⟨rfl, rfl, rfl⟩)
          (by rw [hg] at hna; unfold NoAdjA at hna ⊢; exact hna.tail.tail)
        rw [ihres, hg]
        simp

theorem aggA_id_of_noAdj (l : List TVRecord) (h : NoAdjA l) :
    aggregateTransactionsA l = l := by
  rw [aggA_eq_flush_run]
  have := runA_id l initStateA (Or.inl ⟨rfl, rfl, rfl⟩)
    (by unfold NoAdjA at h ⊢; simpa using h)
  simpa using this

/-! ## Claim C10, format B machinery -/

theorem flushB_of_group_nil (s : AggStateB) (h : s.group = []) : flushB s = s := by
  obtain ⟨res, grp, sym, side⟩ := s
  dsimp only at h
  subst h
  rfl

theorem flushB_of_group_singleton (s : AggStateB) (g0 : WFRecord) (h : s.group = [g0]) :
    flushB s = ⟨s.result ++ [g0], [], s.curSym, s.curType⟩ := by
  obtain ⟨res, grp, sym, side⟩ := s
  dsimp only at h
  subst h
  rfl

theorem flushB_result_cases (s : AggStateB) (h : s.group ≠ []) :
    ∃ fr h0, s.group.head? = some h0 ∧ fr.symbol = h0.symbol ∧ fr.activityType = h0.activityType ∧
      (flushB s).result = s.result ++ [fr] := by
  obtain ⟨res, grp, sym, side⟩ := s
  dsimp only at h
  match grp, h with
  | [x], _ => exact ⟨x, x, rfl, rfl, rfl, rfl⟩
  | x :: y :: rest, _ => exact ⟨mergeB (x :: y :: rest), x, rfl, rfl, rfl, rfl⟩

theorem noAdjB_append_nonTrade (l : List WFRecord) (d : WFRecord)
    (hl : NoAdjB l) (hd : ¬ isTradeRecB d) : NoAdjB (l ++ [d]) := by
  unfold NoAdjB at hl ⊢
  rw [List.chain'_append]
  refine ⟨hl, List.chain'_singleton d, ?_⟩
  intro x hx y hy
  simp only [List.head?_cons, Option.mem_def, Option.some.injEq] at hy
  subst hy
  rintro ⟨hxt, -, hside⟩
  apply hd
  unfold isTradeRecB at hxt ⊢
  rw [← hside]
  exact hxt

theorem flushB_noAdj (s : AggStateB)
    (hmem : ∀ g ∈ s.group, isTradeRecB g ∧ s.curSym = some g.symbol ∧
      s.curType = some g.activityType)
    (hres : NoAdjB s.result)
    (hlast : s.group ≠ [] → ∀ L, s.result.getLast? = some L →
      ¬ (isTradeRecB L ∧ some L.symbol = s.curSym ∧ some L.activityType = s.curType)) :
    NoAdjB ((flushB s).result) := by
  by_cases hg : s.group = []
  · rw [flushB_of_group_nil s hg]
    exact hres
  · obtain ⟨fr, h0, hhead, hsym, hside, hres2⟩ := flushB_result_cases s hg
    rw [hres2]
    have h0mem : h0 ∈ s.group := mem_of_head?_eq hhead
    obtain ⟨htr, hcs, hcs2⟩ := hmem h0 h0mem
    unfold NoAdjB at hres ⊢
    rw [List.chain'_append]
    refine ⟨hres, List.chain'_singleton fr, ?_⟩
    intro x hx y hy
    simp only [List.head?_cons, Option.mem_def, Option.some.injEq] at hy
    subst hy
    rintro ⟨hxt, hxs, hxside⟩
    refine hlast hg x (by rwa [Option.mem_def] at hx) ⟨hxt, ?_, ?_⟩
    · rw [hxs, hsym, hcs]
    · rw [hxside, hside, hcs2]

theorem runB_noAdj (txs : List WFRecord) :
    ∀ s : AggStateB,
      (∀ g ∈ s.group, isTradeRecB g ∧ s.curSym = some g.symbol ∧
        s.curType = some g.activityType) →
      NoAdjB s.result →
      (s.group = [] → s.curSym = none ∧ s.curType = none ∧
        ∀ L, s.result.getLast? = some L → ¬ isTradeRecB L) →
      (s.group ≠ [] → ∀ L, s.result.getLast? = some L →
        ¬ (isTradeRecB L ∧ some L.symbol = s.curSym ∧ some L.activityType = s.curType)) →
      NoAdjB ((flushB (runB s txs)).result) := by
  induction txs with
  | nil =>
    intro s hmem hres hempty hne
    exact flushB_noAdj s hmem hres hne
  | cons tx rest ih =>
    intro s hmem hres hempty hne
    show NoAdjB ((flushB (runB (stepB s tx) rest)).result)
    by_cases h1 : isTradeRecB tx
    · by_cases h2 : s.curSym = some tx.symbol ∧ s.curType = some tx.activityType
      · -- tx joins the current group
        have hgne : s.group ≠ [] := by
          intro hg
          obtain ⟨hsym, -, -⟩ := hempty hg
          rw [hsym] at h2
          exact Option.noConfusion h2.1
        have hstep : stepB s tx = { s with group := s.group ++ [tx] } := by
          unfold stepB
          rw [if_pos (by unfold isTradeRecB at h1; exact h1), if_pos h2]
        rw [hstep]
        apply ih
        · intro g hg
          rcases List.mem_append.mp hg with hg | hg
          · exact hmem g hg
          · simp only [List.mem_singleton] at hg
            subst hg
            exact ⟨h1, h2.1, h2.2⟩
        · exact hres
        · intro hg
          exact absurd (List.append_eq_nil.mp hg).1 hgne
        · intro _ L hL
          exact hne hgne L hL
      · -- tx starts a new group after a flush
        rw [stepB_newGroup s tx h1 h2]
        apply ih
        · intro g hg
          simp only [List.mem_singleton] at hg
          subst hg
          exact ⟨h1, rfl, rfl⟩
        · exact flushB_noAdj s hmem hres hne
        · intro hg
          exact absurd hg (by simp)
        · intro _ L hL
          by_cases hg : s.group = []
          · rw [flushB_of_group_nil s hg] at hL
            obtain ⟨-, -, hlast⟩ := hempty hg
            rintro ⟨hLt, -, -⟩
            exact hlast L hL hLt
          · obtain ⟨fr, h0, hhead, hsym, hside, hres2⟩ := flushB_result_cases s hg
            rw [hres2, List.getLast?_concat, Option.some.injEq] at hL
            subst hL
            have h0mem : h0 ∈ s.group := mem_of_head?_eq hhead
            obtain ⟨htr, hcs, hcs2⟩ := hmem h0 h0mem
            rintro ⟨-, hfs, hfside⟩
            apply h2
            constructor
            · rw [hcs, ← hsym, hfs]
            · rw [hcs2, ← hside, hfside]
    · -- non-trade record: flush, emit, reset
      rw [stepB_nonTrade s tx h1]
      apply ih
      · intro g hg
        exact absurd hg (List.not_mem_nil g)
      · exact noAdjB_append_nonTrade _ tx (flushB_noAdj s hmem hres hne) h1
      · intro _
        refine ⟨rfl, rfl, ?_⟩
        intro L hL
        rw [List.getLast?_concat, Option.some.injEq] at hL
        subst hL
        exact h1
      · intro hg
        exact absurd rfl hg

theorem aggB_noAdj (l : List WFRecord) : NoAdjB (aggregateTransactionsB l) := by
  rw [aggB_eq_flush_run]
  apply runB_noAdj l initStateB
  · intro g hg
    exact absurd hg (List.not_mem_nil g)
  · exact List.chain'_nil
  · intro _
    refine ⟨rfl, rfl, ?_⟩
    intro L hL
    exact Option.noConfusion hL
  · intro hg
    exact absurd rfl hg

theorem runB_id (rest : List WFRecord) :
    ∀ s : AggStateB,
      (s.group = [] ∧ s.curSym = none ∧ s.curType = none ∨
        ∃ g0, s.group = [g0] ∧ isTradeRecB g0 ∧ s.curSym = some g0.symbol ∧
          s.curType = some g0.activityType) →
      NoAdjB (s.group ++ rest) →
      (flushB (runB s rest)).result = s.result ++ s.group ++ rest := by
  induction rest with
  | nil =>
    intro s hinv hna
    rcases hinv with ⟨hg, -, -⟩ | ⟨g0, hg, -, -, -⟩
    · rw [show runB s [] = s from rfl, flushB_of_group_nil s hg, hg]
      simp
    · rw [show runB s [] = s from rfl, flushB_of_group_singleton s g0 hg, hg]
      simp
  | cons tx rest ih =>
    intro s hinv hna
    show (flushB (runB (stepB s tx) rest)).result = _
    by_cases h1 : isTradeRecB tx
    · rcases hinv with ⟨hg, hsym, hside⟩ | ⟨g0, hg, hg0t, hsym, hside⟩
      · -- empty group: tx starts a new group
        have hm : ¬ (s.curSym = some tx.symbol ∧ s.curType = some tx.activityType) := by
          rintro ⟨hc, -⟩
          rw [hsym] at hc
          exact Option.noConfusion hc
        rw [stepB_newGroup s tx h1 hm, flushB_of_group_nil s hg]
        have ihres := ih ⟨s.result, [tx], some tx.symbol, some tx.activityType⟩
          (Or.inr ⟨tx, rfl, h1, rfl, rfl⟩)
          (by rw [hg] at hna; exact hna)
        rw [ihres]
        rw [hg]
        simp
      · -- singleton group [g0]: NoAdj forces a mismatch, so flush then restart
        have hclash : ¬ clashB g0 tx := by
          rw [hg] at hna
          unfold NoAdjB at hna
          exact (List.chain'_cons.mp hna).1
        have hm : ¬ (s.curSym = some tx.symbol ∧ s.curType = some tx.activityType) := by
          rintro ⟨hc, hc2⟩
          rw [hsym, Option.some.injEq] at hc
          rw [hside, Option.some.injEq] at hc2
          exact hclash ⟨hg0t, hc, hc2⟩
        rw [stepB_newGroup s tx h1 hm, flushB_of_group_singleton s g0 hg]
        have ihres := ih ⟨s.result ++ [g0], [tx], some tx.symbol, some tx.activityType⟩
          (Or.inr ⟨tx, rfl, h1, rfl, rfl⟩)
          (by rw [hg] at hna; unfold NoAdjB at hna ⊢; exact hna.tail)
        rw [ihres, hg]
        simp
    · -- non-trade record
      rcases hinv with ⟨hg, -, -⟩ | ⟨g0, hg, -, -, -⟩
      · rw [stepB_nonTrade s tx h1, flushB_of_group_nil s hg]
        have ihres := ih ⟨s.result ++ [tx], [], none, none⟩
          (Or.inl ⟨rfl, rfl, rfl⟩)
          (by rw [hg] at hna; unfold NoAdjB at hna ⊢; exact hna.tail)
        rw [ihres, hg]
        simp
      · rw [stepB_nonTrade s tx h1, flushB_of_group_singleton s g0 hg]
        have ihres := ih ⟨(s.result ++ [g0]) ++ [tx], [], none, none⟩
          (Or.inl ⟨rfl, rfl, rfl⟩)
          (by rw [hg] at hna; unfold NoAdjB at hna ⊢; exact hna.tail.tail)
        rw [ihres, hg]
        simp

theorem aggB_id_of_noAdj (l : List WFRecord) (h : NoAdjB l) :
    aggregateTransactionsB l = l := by
  rw [aggB_eq_flush_run]
  have := runB_id l initStateB (Or.inl ⟨rfl, rfl, rfl⟩)
    (by unfold NoAdjB at h ⊢; simpa using h)
  simpa using this


/-- C10: `aggregateTransactions` is idempotent in both target shapes: its
output never contains two adjacent BUY/SELL records with the same symbol and
direction, so a second pass sees only size-1 groups and returns the list
unchanged. -/
theorem C10_aggregation_idempotent :
    (∀ l : List TVRecord,
      aggregateTransactionsA (aggregateTransactionsA l) = aggregateTransactionsA l) ∧
    (∀ l : List WFRecord,
      aggregateTransactionsB (aggregateTransactionsB l) = aggregateTransactionsB l) := by
  constructor
  · intro l
    exact aggA_id_of_noAdj (aggregateTransactionsA l) (aggA_noAdj l)
  · intro l
    exact aggB_id_of_noAdj (aggregateTransactionsB l) (aggB_noAdj l)

/-! ## Claim C1 -/

theorem processRowATail_trichotomy (r : ℕ) (t : ScalableTransaction) (m : SymbolMap)
    (side : TVSide) :
    ((processRowATail r t m side).1.length = 1 ∧ (processRowATail r t m side).2.1 = [] ∧
      (processRowATail r t m side).2.2 = []) ∨
    ((processRowATail r t m side).1 = [] ∧ (processRowATail r t m side).2.1.length = 1 ∧
      (processRowATail r t m side).2.2 = []) ∨
    ((processRowATail r t m side).1 = [] ∧ (processRowATail r t m side).2.1 = [] ∧
      (processRowATail r t m side).2.2.length = 1) := by
  unfold processRowATail
  cases h : symbolForRowA r t m side with
  | error e => simp
  | ok symbol =>
    dsimp only
    repeat' split
    all_goals simp

theorem processRowASpecial_trichotomy (r : ℕ) (t : ScalableTransaction) (m : SymbolMap)
    (side : TVSide) :
    ((processRowASpecial r t m side).1.length = 1 ∧ (processRowASpecial r t m side).2.1 = [] ∧
      (processRowASpecial r t m side).2.2 = []) ∨
    ((processRowASpecial r t m side).1 = [] ∧ (processRowASpecial r t m side).2.1.length = 1 ∧
      (processRowASpecial r t m side).2.2 = []) ∨
    ((processRowASpecial r t m side).1 = [] ∧ (processRowASpecial r t m side).2.1 = [] ∧
      (processRowASpecial r t m side).2.2.length = 1) := by
  unfold processRowASpecial
  repeat' split
  all_goals try simp
  exact processRowATail_trichotomy r t m side

theorem processRowA_trichotomy (i : ℕ) (t : ScalableTransaction) (m : SymbolMap) :
    ((processRowA i t m).1.length = 1 ∧ (processRowA i t m).2.1 = [] ∧
      (processRowA i t m).2.2 = []) ∨
    ((processRowA i t m).1 = [] ∧ (processRowA i t m).2.1.length = 1 ∧
      (processRowA i t m).2.2 = []) ∨
    ((processRowA i t m).1 = [] ∧ (processRowA i t m).2.1 = [] ∧
      (processRowA i t m).2.2.length = 1) := by
  unfold processRowA
  repeat' split
  all_goals try simp
  exact processRowASpecial_trichotomy (i + 2) t m _

theorem processRowBTail_trichotomy (r : ℕ) (t : ScalableTransaction) (m : SymbolMap)
    (a : WFActivity) :
    ((processRowBTail r t m a).1.length = 1 ∧ (processRowBTail r t m a).2.1 = [] ∧
      (processRowBTail r t m a).2.2 = []) ∨
    ((processRowBTail r t m a).1 = [] ∧ (processRowBTail r t m a).2.1.length = 1 ∧
      (processRowBTail r t m a).2.2 = []) ∨
    ((processRowBTail r t m a).1 = [] ∧ (processRowBTail r t m a).2.1 = [] ∧
      (processRowBTail r t m a).2.2.length = 1) := by
  unfold processRowBTail
  cases h : symbolForRowB r t m a with
  | error e => simp
  | ok symbol =>
    dsimp only
    repeat' split
    all_goals simp

theorem processRowBSpecial_trichotomy (r : ℕ) (t : ScalableTransaction) (m : SymbolMap)
    (a : WFActivity) :
    ((1 ≤ (processRowBSpecial r t m a).1.length ∧ (processRowBSpecial r t m a).1.length ≤ 2) ∧
      (processRowBSpecial r t m a).2.1 = [] ∧ (processRowBSpecial r t m a).2.2 = []) ∨
    ((processRowBSpecial r t m a).1 = [] ∧ (processRowBSpecial r t m a).2.1.length = 1 ∧
      (processRowBSpecial r t m a).2.2 = []) ∨
    ((processRowBSpecial r t m a).1 = [] ∧ (processRowBSpecial r t m a).2.1 = [] ∧
      (processRowBSpecial r t m a).2.2.length = 1) := by
  unfold processRowBSpecial
  repeat' split
  all_goals try (exfalso; linarith)
  all_goals try (exfalso; simp only [not_lt] at *; tauto)
  all_goals try (simp; done)
  rcases processRowBTail_trichotomy r t m a with ⟨h1, h2, h3⟩ | h | h
  · exact Or.inl ⟨⟨by omega, by omega⟩, h2, h3⟩
  · exact Or.inr (Or.inl h)
  · exact Or.inr (Or.inr h)

theorem processRowB_trichotomy (i : ℕ) (t : ScalableTransaction) (m : SymbolMap) :
    ((1 ≤ (processRowB i t m).1.length ∧ (processRowB i t m).1.length ≤ 2) ∧
      (processRowB i t m).2.1 = [] ∧ (processRowB i t m).2.2 = []) ∨
    ((processRowB i t m).1 = [] ∧ (processRowB i t m).2.1.length = 1 ∧
      (processRowB i t m).2.2 = []) ∨
    ((processRowB i t m).1 = [] ∧ (processRowB i t m).2.1 = [] ∧
      (processRowB i t m).2.2.length = 1) := by
  unfold processRowB
  repeat' split
  all_goals try (simp; done)
  exact processRowBSpecial_trichotomy (i + 2) t m _

theorem processRowBSpecial_two (r : ℕ) (t : ScalableTransaction) (m : SymbolMap)
    (a : WFActivity) (h : (processRowBSpecial r t m a).1.length = 2) :
    isInterestSettlementB t = true ∧ 0 < |parseEuropeanNumber t.tax| ∧
      0 < |parseEuropeanNumber t.amount| := by
  revert h
  unfold processRowBSpecial
  repeat' split
  all_goals intro h
  all_goals try (exfalso; linarith)
  all_goals try (exfalso; simp only [not_lt] at *; tauto)
  all_goals try (exfalso; simp_all; done)
  all_goals try (refine ⟨?_, ?_, ?_⟩ <;> assumption)
  rcases processRowBTail_trichotomy r t m a with ⟨h1, -, -⟩ | ⟨h1, -, -⟩ | ⟨h1, -, -⟩ <;>
    simp_all

theorem processRowB_two_records (i : ℕ) (t : ScalableTransaction) (m : SymbolMap)
    (h : (processRowB i t m).1.length = 2) :
    isInterestSettlementB t = true ∧ 0 < |parseEuropeanNumber t.tax| ∧
      0 < |parseEuropeanNumber t.amount| := by
  revert h
  unfold processRowB
  repeat' split
  all_goals intro h
  all_goals try (exfalso; simp_all; done)
  exact processRowBSpecial_two (i + 2) t m _ h

theorem foldRowsA (m : SymbolMap) (l : List (ℕ × ScalableTransaction)) :
    ∀ acc : List TVRecord × List ConversionError × List SkippedTransaction,
      l.foldl (fun acc p =>
        let out := processRowA p.1 p.2 m
        (acc.1 ++ out.1, acc.2.1 ++ out.2.1, acc.2.2 ++ out.2.2)) acc =
      (acc.1 ++ (l.map (fun p => (processRowA p.1 p.2 m).1)).join,
       acc.2.1 ++ (l.map (fun p => (processRowA p.1 p.2 m).2.1)).join,
       acc.2.2 ++ (l.map (fun p => (processRowA p.1 p.2 m).2.2)).join) := by
  induction l with
  | nil =>
    intro acc
    obtain ⟨a, b, c⟩ := acc
    simp
  | cons p rest ih =>
    intro acc
    rw [List.foldl_cons, ih]
    simp [List.append_assoc]

theorem foldRowsB (m : SymbolMap) (l : List (ℕ × ScalableTransaction)) :
    ∀ acc : List WFRecord × List ConversionError × List SkippedTransaction,
      l.foldl (fun acc p =>
        let out := processRowB p.1 p.2 m
        (acc.1 ++ out.1, acc.2.1 ++ out.2.1, acc.2.2 ++ out.2.2)) acc =
      (acc.1 ++ (l.map (fun p => (processRowB p.1 p.2 m).1)).join,
       acc.2.1 ++ (l.map (fun p => (processRowB p.1 p.2 m).2.1)).join,
       acc.2.2 ++ (l.map (fun p => (processRowB p.1 p.2 m).2.2)).join) := by
  induction l with
  | nil =>
    intro acc
    obtain ⟨a, b, c⟩ := acc
    simp
  | cons p rest ih =>
    intro acc
    rw [List.foldl_cons, ih]
    simp [List.append_assoc]

theorem convertA_join (txs : List ScalableTransaction) (m : SymbolMap) :
    convertTransactions txs m .detailed =
      { transactions := (txs.enum.map (fun p => (processRowA p.1 p.2 m).1)).join,
        errors := (txs.enum.map (fun p => (processRowA p.1 p.2 m).2.1)).join,
        skipped := (txs.enum.map (fun p => (processRowA p.1 p.2 m).2.2)).join } := by
  unfold convertTransactions
  rw [foldRowsA m txs.enum ([], [], [])]
  rfl

theorem convertB_join (txs : List ScalableTransaction) (m : SymbolMap) :
    convertToWealthfolio txs m .detailed =
      { transactions := (txs.enum.map (fun p => (processRowB p.1 p.2 m).1)).join,
        errors := (txs.enum.map (fun p => (processRowB p.1 p.2 m).2.1)).join,
        skipped := (txs.enum.map (fun p => (processRowB p.1 p.2 m).2.2)).join } := by
  unfold convertToWealthfolio
  rw [foldRowsB m txs.enum ([], [], [])]
  rfl

/-- C1: each row contributes to exactly one of the three outputs — format A
appends exactly one record, one error or one skip entry; format B appends
one or two records (two only for an interest settlement with positive tax
and positive amount components), or exactly one error or skip entry — and
the detailed-mode converters are the per-row outcomes concatenated in input
order, so no row's outcome affects any later row. -/
theorem C1_row_partition_total :
    (∀ (i : ℕ) (t : ScalableTransaction) (m : SymbolMap),
      ((processRowA i t m).1.length = 1 ∧ (processRowA i t m).2.1 = [] ∧
        (processRowA i t m).2.2 = []) ∨
      ((processRowA i t m).1 = [] ∧ (processRowA i t m).2.1.length = 1 ∧
        (processRowA i t m).2.2 = []) ∨
      ((processRowA i t m).1 = [] ∧ (processRowA i t m).2.1 = [] ∧
        (processRowA i t m).2.2.length = 1)) ∧
    (∀ (i : ℕ) (t : ScalableTransaction) (m : SymbolMap),
      ((1 ≤ (processRowB i t m).1.length ∧ (processRowB i t m).1.length ≤ 2) ∧
        (processRowB i t m).2.1 = [] ∧ (processRowB i t m).2.2 = []) ∨
      ((processRowB i t m).1 = [] ∧ (processRowB i t m).2.1.length = 1 ∧
        (processRowB i t m).2.2 = []) ∨
      ((processRowB i t m).1 = [] ∧ (processRowB i t m).2.1 = [] ∧
        (processRowB i t m).2.2.length = 1)) ∧
    (∀ (i : ℕ) (t : ScalableTransaction) (m : SymbolMap),
      (processRowB i t m).1.length = 2 →
      isInterestSettlementB t = true ∧ 0 < |parseEuropeanNumber t.tax| ∧
        0 < |parseEuropeanNumber t.amount|) ∧
    (∀ (txs : List ScalableTransaction) (m : SymbolMap),
      convertTransactions txs m .detailed =
        { transactions := (txs.enum.map (fun p => (processRowA p.1 p.2 m).1)).join,
          errors := (txs.enum.map (fun p => (processRowA p.1 p.2 m).2.1)).join,
          skipped := (txs.enum.map (fun p => (processRowA p.1 p.2 m).2.2)).join }) ∧
    (∀ (txs : List ScalableTransaction) (m : SymbolMap),
      convertToWealthfolio txs m .detailed =
        { transactions := (txs.enum.map (fun p => (processRowB p.1 p.2 m).1)).join,
          errors := (txs.enum.map (fun p => (processRowB p.1 p.2 m).2.1)).join,
          skipped := (txs.enum.map (fun p => (processRowB p.1 p.2 m).2.2)).join }) :=
  ⟨processRowA_trichotomy, processRowB_trichotomy, processRowB_two_records,
    convertA_join, convertB_join⟩

/-- Witness for C1: the interest-settlement sample row produces two format B
records, and its parsed components are positive. -/
theorem C1_row_partition_total_witness :
    (processRowB 0 tKkt []).1.length = 2 ∧
    isInterestSettlementB tKkt = true ∧ 0 < |parseEuropeanNumber tKkt.tax| ∧
      0 < |parseEuropeanNumber tKkt.amount| :=
  ⟨by with_unfolding_all rfl,
    C1_row_partition_total.2.2.1 0 tKkt [] (by with_unfolding_all rfl)⟩

/-! ## Row-level navigation lemmas for claims C3, C6 and C7 -/

theorem processRowA_gates (i : ℕ) (t : ScalableTransaction) (m : SymbolMap) (side : TVSide)
    (hss : shouldSkipStatus t.status = false) (hvs : isValidStatus t.status = true)
    (hmap : mapTransactionTypeA t.type = some side) :
    processRowA i t m = processRowASpecial (i + 2) t m side := by
  unfold processRowA
  rw [if_neg (by simp [hss]), if_neg (by simp [hvs]), hmap]

theorem processRowB_gates (i : ℕ) (t : ScalableTransaction) (m : SymbolMap) (a : WFActivity)
    (hss : shouldSkipStatus t.status = false) (hvs : isValidStatus t.status = true)
    (hmap : mapTransactionTypeB t.type = some a) :
    processRowB i t m = processRowBSpecial (i + 2) t m a := by
  unfold processRowB
  rw [if_neg (by simp [hss]), if_neg (by simp [hvs]), hmap]

theorem mapA_interest (t : ScalableTransaction) (h : normLT t.type = "interest") :
    mapTransactionTypeA t.type = some .dividend := by
  unfold mapTransactionTypeA
  rw [h]
  decide

theorem mapB_interest (t : ScalableTransaction) (h : normLT t.type = "interest") :
    mapTransactionTypeB t.type = some .INTEREST := by
  unfold mapTransactionTypeB
  rw [h]
  decide

theorem lowerFee_mapA (t : ScalableTransaction) (he : toLowerStr t.type = "fee") :
    mapTransactionTypeA t.type = some .taxesAndFees := by
  unfold mapTransactionTypeA normLT
  rw [he]
  decide

theorem lowerFee_mapB (t : ScalableTransaction) (he : toLowerStr t.type = "fee") :
    mapTransactionTypeB t.type = some .FEE := by
  unfold mapTransactionTypeB normLT
  rw [he]
  decide

theorem lowerTaxes_mapA (t : ScalableTransaction) (he : toLowerStr t.type = "taxes") :
    mapTransactionTypeA t.type = some .taxesAndFees := by
  unfold mapTransactionTypeA normLT
  rw [he]
  decide

theorem lowerTaxes_mapB (t : ScalableTransaction) (he : toLowerStr t.type = "taxes") :
    mapTransactionTypeB t.type = some .TAX := by
  unfold mapTransactionTypeB normLT
  rw [he]
  decide

theorem toLower_ne_of_normLT {t : ScalableTransaction} {a b : String}
    (h : normLT t.type = a) (hab : trimStr b ≠ a) : toLowerStr t.type ≠ b := by
  intro he
  apply hab
  rw [← h]
  unfold normLT
  rw [he]

theorem settlementA_true (t : ScalableTransaction) (htype : normLT t.type = "interest")
    (htrig : (containsSub (toLowerStr t.description) "kkt" ||
      containsSub (toLowerStr t.description) "abschluss") = true ∨
      parseEuropeanNumber t.amount < 0) :
    isInterestSettlementA t = true := by
  unfold isInterestSettlementA
  rw [if_neg (by simp [htype])]
  rcases htrig with h | h
  · simp [h]
  · simp [h]

theorem settlementB_true (t : ScalableTransaction) (htype : normLT t.type = "interest")
    (htrig : (containsSub (toLowerStr t.description) "kkt" ||
      containsSub (toLowerStr t.description) "abschluss") = true ∨
      parseEuropeanNumber t.amount < 0) :
    isInterestSettlementB t = true := by
  unfold isInterestSettlementB
  rw [if_neg (by simp [htype])]
  rcases htrig with h | h
  · simp [h]
  · simp [h]

/-! ## Claim C3 -/

/-- C3: an interest row that passes the status gate, is no STORNO and meets
the settlement trigger splits, in format B, into a TAX record of `abs(tax)`
(when positive) followed by a FEE record of `abs(amount)` (when positive),
while format A emits one combined record of `abs(tax) + abs(amount)`; both
skip with "Zero tax/fee amount in interest settlement" when both components
are zero.  The sample row (amount −155,04, tax 185,98 on "KKT-Abschluss")
yields exactly TAX 185.98 then FEE 155.04 in format B. -/
theorem C3_interest_settlement_split :
    (∀ (i : ℕ) (t : ScalableTransaction) (m : SymbolMap),
      normLT t.type = "interest" →
      shouldSkipStatus t.status = false →
      isValidStatus t.status = true →
      isStornoTransaction t = false →
      ((containsSub (toLowerStr t.description) "kkt" ||
        containsSub (toLowerStr t.description) "abschluss") = true ∨
        parseEuropeanNumber t.amount < 0) →
      processRowB i t m =
        ((if |parseEuropeanNumber t.tax| > 0 then
            [{ date := formatDateTimeB t.date t.time, symbol := "$CASH-" ++ currencyOf t,
               quantity := 1, activityType := .TAX,
               unitPrice := |parseEuropeanNumber t.tax|,
               currency := currencyOf t, fee := 0,
               amount := some |parseEuropeanNumber t.tax| }]
          else []) ++
         (if |parseEuropeanNumber t.amount| > 0 then
            [{ date := formatDateTimeB t.date t.time, symbol := "$CASH-" ++ currencyOf t,
               quantity := 1, activityType := .FEE,
               unitPrice := |parseEuropeanNumber t.amount|,
               currency := currencyOf t, fee := 0,
               amount := some |parseEuropeanNumber t.amount| }]
          else []),
         [],
         if |parseEuropeanNumber t.tax| ≤ 0 ∧ |parseEuropeanNumber t.amount| ≤ 0 then
           [⟨i + 2, t.type, t.description, "Zero tax/fee amount in interest settlement"⟩]
         else []) ∧
      processRowA i t m =
        (if |parseEuropeanNumber t.tax| + |parseEuropeanNumber t.amount| ≤ 0 then
          ([], [], [⟨i + 2, t.type, t.description,
            "Zero tax/fee amount in interest settlement"⟩])
        else
          ([{ Symbol := "$CASH", Side := .taxesAndFees,
              Qty := some (|parseEuropeanNumber t.tax| + |parseEuropeanNumber t.amount|),
              FillPrice := none, Commission := none,
              ClosingTime := formatDateTimeA t.date t.time }], [], []))) ∧
    processRowB 0 tKkt [] =
      ([{ date := "2024-03-31T00:00:00.000Z", symbol := "$CASH-EUR", quantity := 1,
          activityType := .TAX, unitPrice := 18598 / 100, currency := "EUR", fee := 0,
          amount := some (18598 / 100) },
        { date := "2024-03-31T00:00:00.000Z", symbol := "$CASH-EUR", quantity := 1,
          activityType := .FEE, unitPrice := 15504 / 100, currency := "EUR", fee := 0,
          amount := some (15504 / 100) }], [], []) := by
  constructor
  · intro i t m htype hss hvs hst htrig
    constructor
    · rw [processRowB_gates i t m .INTEREST hss hvs (mapB_interest t htype)]
      unfold processRowBSpecial
      rw [if_neg (by simp [hst]),
        if_neg (toLower_ne_of_normLT htype (by decide)),
        if_pos (settlementB_true t htype htrig)]
    · rw [processRowA_gates i t m .dividend hss hvs (mapA_interest t htype)]
      unfold processRowASpecial
      rw [if_neg (by simp [hst]),
        if_neg (toLower_ne_of_normLT htype (by decide)),
        if_pos (settlementA_true t htype htrig)]
  · with_unfolding_all rfl

/-- Witness for C3 at the sample settlement row. -/
theorem C3_interest_settlement_split_witness :
    processRowB 0 tKkt [] =
      ((if |parseEuropeanNumber tKkt.tax| > 0 then
          [{ date := formatDateTimeB tKkt.date tKkt.time,
             symbol := "$CASH-" ++ currencyOf tKkt,
             quantity := 1, activityType := .TAX,
             unitPrice := |parseEuropeanNumber tKkt.tax|,
             currency := currencyOf tKkt, fee := 0,
             amount := some |parseEuropeanNumber tKkt.tax| }]
        else []) ++
       (if |parseEuropeanNumber tKkt.amount| > 0 then
          [{ date := formatDateTimeB tKkt.date tKkt.time,
             symbol := "$CASH-" ++ currencyOf tKkt,
             quantity := 1, activityType := .FEE,
             unitPrice := |parseEuropeanNumber tKkt.amount|,
             currency := currencyOf tKkt, fee := 0,
             amount := some |parseEuropeanNumber tKkt.amount| }]
        else []),
       [],
       if |parseEuropeanNumber tKkt.tax| ≤ 0 ∧ |parseEuropeanNumber tKkt.amount| ≤ 0 then
         [⟨2, tKkt.type, tKkt.description, "Zero tax/fee amount in interest settlement"⟩]
       else []) :=
  (C3_interest_settlement_split.1 0 tKkt [] (by decide) (by decide) (by decide) (by decide)
    (Or.inl (by decide))).1

/-! ## Claim C7 -/

theorem settlementA_false (t : ScalableTransaction) (h : normLT t.type ≠ "interest") :
    isInterestSettlementA t = false := by
  unfold isInterestSettlementA
  rw [if_pos h]

theorem settlementB_false (t : ScalableTransaction) (h : normLT t.type ≠ "interest") :
    isInterestSettlementB t = false := by
  unfold isInterestSettlementB
  rw [if_pos h]

/-- C7 counterexample: a Buy row with empty ISIN is not always routed to
`errors` — a STORNO-marked Buy becomes a deposit record (the reversal branch
precedes the ISIN check), and a cancelled Buy is skipped by the status gate;
neither produces an error entry. -/
theorem C7_missing_isin_counterexample :
    mapTransactionTypeA tStornoBuy.type = some .buy ∧ tStornoBuy.isin = "" ∧
    (processRowA 0 tStornoBuy []).2.1 = [] ∧ (processRowA 0 tStornoBuy []).1 ≠ [] ∧
    mapTransactionTypeA tCancelledBuy.type = some .buy ∧ tCancelledBuy.isin = "" ∧
    (processRowA 0 tCancelledBuy []).2.1 = [] ∧ (processRowA 0 tCancelledBuy []).2.2 ≠ [] := by
  refine ⟨?_, ?_, ?_, ?_, ?_, ?_, ?_, ?_⟩ <;> with_unfolding_all decide

/-- C7 (amended): a row that passes the status gate, is not a STORNO
reversal, maps to BUY or SELL and has an empty `isin` goes to `errors` with
"Missing ISIN for trade transaction" and contributes nothing else, in both
converters. -/
theorem C7_missing_isin_amended :
    ∀ (i : ℕ) (t : ScalableTransaction) (m : SymbolMap),
      shouldSkipStatus t.status = false →
      isValidStatus t.status = true →
      isStornoTransaction t = false →
      t.isin = "" →
      (∀ side : TVSide, mapTransactionTypeA t.type = some side →
        side = .buy ∨ side = .sell →
        processRowA i t m =
          ([], [⟨i + 2, "", t.description, "Missing ISIN for trade transaction"⟩], [])) ∧
      (∀ a : WFActivity, mapTransactionTypeB t.type = some a →
        a = .BUY ∨ a = .SELL →
        processRowB i t m =
          ([], [⟨i + 2, "", t.description, "Missing ISIN for trade transaction"⟩], [])) := by
  intro i t m hss hvs hst hisin
  constructor
  · intro side hmap hside
    have hfee : toLowerStr t.type ≠ "fee" := by
      intro he
      rw [lowerFee_mapA t he] at hmap
      rcases hside with h | h <;> subst h <;> exact absurd hmap (by decide)
    have hint : normLT t.type ≠ "interest" := by
      intro he
      rw [mapA_interest t he] at hmap
      rcases hside with h | h <;> subst h <;> exact absurd hmap (by decide)
    have htaxes : toLowerStr t.type ≠ "taxes" := by
      intro he
      rw [lowerTaxes_mapA t he] at hmap
      rcases hside with h | h <;> subst h <;> exact absurd hmap (by decide)
    have hcond : side = .buy ∨ side = .sell ∨ side = .dividend := by
      rcases hside with h | h
      · exact Or.inl h
      · exact Or.inr (Or.inl h)
    have hdiv : ¬ side = .dividend := by
      rcases hside with h | h <;> subst h <;> decide
    rw [processRowA_gates i t m side hss hvs hmap]
    unfold processRowASpecial
    rw [if_neg (by simp [hst]), if_neg hfee,
      if_neg (by simp [settlementA_false t hint]), if_neg htaxes]
    unfold processRowATail symbolForRowA
    rw [if_pos hcond, if_pos hisin, if_neg hdiv]
  · intro a hmap hside
    have hfee : toLowerStr t.type ≠ "fee" := by
      intro he
      rw [lowerFee_mapB t he] at hmap
      rcases hside with h | h <;> subst h <;> exact absurd hmap (by decide)
    have hint : normLT t.type ≠ "interest" := by
      intro he
      rw [mapB_interest t he] at hmap
      rcases hside with h | h <;> subst h <;> exact absurd hmap (by decide)
    have htaxes : toLowerStr t.type ≠ "taxes" := by
      intro he
      rw [lowerTaxes_mapB t he] at hmap
      rcases hside with h | h <;> subst h <;> exact absurd hmap (by decide)
    have hcond : a = .BUY ∨ a = .SELL ∨ a = .DIVIDEND := by
      rcases hside with h | h
      · exact Or.inl h
      · exact Or.inr (Or.inl h)
    have hdiv : ¬ a = .DIVIDEND := by
      rcases hside with h | h <;> subst h <;> decide
    rw [processRowB_gates i t m a hss hvs hmap]
    unfold processRowBSpecial
    rw [if_neg (by simp [hst]), if_neg hfee,
      if_neg (by simp [settlementB_false t hint]), if_neg htaxes]
    unfold processRowBTail symbolForRowB
    rw [if_pos hcond, if_pos hisin, if_neg hdiv]

/-- Witness for C7 at a concrete ISIN-less Buy row. -/
theorem C7_missing_isin_amended_witness :
    processRowA 0 tBuyNoIsin [] =
      ([], [⟨2, "", tBuyNoIsin.description, "Missing ISIN for trade transaction"⟩], []) :=
  (C7_missing_isin_amended 0 tBuyNoIsin [] (by decide) (by decide) (by decide) rfl).1
    .buy (by decide) (Or.inl rfl)

/-! ## Claim C6 -/

/-- C6 counterexample: a 50 EUR dividend row converts, in format A, to a
record with `Qty = 50` (the absolute amount), not quantity 1 — the format A
converter stores the gross amount in the quantity column. -/
theorem C6_dividend_quantity_counterexample :
    mapTransactionTypeA tDiv.type = some .dividend ∧
    (processRowA 0 tDiv []).1 =
      [{ Symbol := "$CASH", Side := .dividend, Qty := some 50, FillPrice := none,
         Commission := none, ClosingTime := "2024-02-01 00:00:00" }] ∧
    ¬ ((processRowA 0 tDiv []).1.map TVRecord.Qty = [some 1]) := by
  refine ⟨?_, ?_, ?_⟩ <;> with_unfolding_all decide

/-- C6 (amended): a dividend or plain (non-settlement) interest row that
passes the gates and converts emits, in format B, one record with
quantity 1 and unit price `abs(amount)`; in format A the emitted record
instead carries `Qty = abs(amount)` (with side Dividend). -/
theorem C6_dividend_interest_amended :
    (∀ (i : ℕ) (t : ScalableTransaction) (m : SymbolMap) (a : WFActivity),
      shouldSkipStatus t.status = false →
      isValidStatus t.status = true →
      isStornoTransaction t = false →
      mapTransactionTypeB t.type = some a →
      a = .DIVIDEND ∨ a = .INTEREST →
      isInterestSettlementB t = false →
      (t.isin = "" ∨ ∃ r0, lookupSymbolMap m t.isin = some (some r0)) →
      0 < |parseEuropeanNumber t.amount| →
      ∃ rec : WFRecord, processRowB i t m = ([rec], [], []) ∧
        rec.quantity = 1 ∧ rec.unitPrice = |parseEuropeanNumber t.amount| ∧
        rec.activityType = a) ∧
    (∀ (i : ℕ) (t : ScalableTransaction) (m : SymbolMap),
      shouldSkipStatus t.status = false →
      isValidStatus t.status = true →
      isStornoTransaction t = false →
      mapTransactionTypeA t.type = some .dividend →
      isInterestSettlementA t = false →
      (t.isin = "" ∨ ∃ r0, lookupSymbolMap m t.isin = some (some r0)) →
      0 < |parseEuropeanNumber t.amount| →
      ∃ rec : TVRecord, processRowA i t m = ([rec], [], []) ∧
        rec.Qty = some |parseEuropeanNumber t.amount| ∧ rec.Side = .dividend) := by
  constructor
  · intro i t m a hss hvs hst hmap ha hset hres hamt
    have hfee : toLowerStr t.type ≠ "fee" := by
      intro he
      rw [lowerFee_mapB t he] at hmap
      rcases ha with h | h <;> subst h <;> exact absurd hmap (by decide)
    have htaxes : toLowerStr t.type ≠ "taxes" := by
      intro he
      rw [lowerTaxes_mapB t he] at hmap
      rcases ha with h | h <;> subst h <;> exact absurd hmap (by decide)
    have hsym : ∃ sym, symbolForRowB (i + 2) t m a = .ok sym := by
      unfold symbolForRowB
      rcases ha with h | h
      · subst h
        rw [if_pos (Or.inr (Or.inr rfl))]
        by_cases hi : t.isin = ""
        · rw [if_pos hi, if_pos rfl]
          exact ⟨_, rfl⟩
        · rcases hres with h2 | ⟨r0, hr⟩
          · exact absurd h2 hi
          · rw [if_neg hi, hr]
            exact ⟨_, rfl⟩
      · subst h
        rw [if_neg (by decide), if_pos rfl]
        exact ⟨_, rfl⟩
    obtain ⟨sym, hsym⟩ := hsym
    have hnottrade : ¬ (a = .BUY ∨ a = .SELL) := by
      rcases ha with h | h <;> subst h <;> decide
    rw [processRowB_gates i t m a hss hvs hmap]
    unfold processRowBSpecial
    rw [if_neg (by simp [hst]), if_neg hfee, if_neg (by simp [hset]), if_neg htaxes]
    unfold processRowBTail
    rw [hsym]
    dsimp only
    rw [if_neg hnottrade, if_pos ha]
    rw [if_neg (by
      rintro (h | ⟨h2, -⟩)
      · norm_num at h
      · exact absurd hamt (by simpa using h2))]
    refine ⟨_, rfl, rfl, ?_, rfl⟩
    dsimp only
    rw [if_pos hamt]
  · intro i t m hss hvs hst hmap hset hres hamt
    have hfee : toLowerStr t.type ≠ "fee" := by
      intro he
      rw [lowerFee_mapA t he] at hmap
      exact absurd hmap (by decide)
    have htaxes : toLowerStr t.type ≠ "taxes" := by
      intro he
      rw [lowerTaxes_mapA t he] at hmap
      exact absurd hmap (by decide)
    have hsym : ∃ sym, symbolForRowA (i + 2) t m .dividend = .ok sym := by
      unfold symbolForRowA
      rw [if_pos (Or.inr (Or.inr rfl))]
      by_cases hi : t.isin = ""
      · rw [if_pos hi, if_pos rfl]
        exact ⟨_, rfl⟩
      · rcases hres with h2 | ⟨r0, hr⟩
        · exact absurd h2 hi
        · rw [if_neg hi, hr]
          exact ⟨_, rfl⟩
    obtain ⟨sym, hsym⟩ := hsym
    rw [processRowA_gates i t m .dividend hss hvs hmap]
    unfold processRowASpecial
    rw [if_neg (by simp [hst]), if_neg hfee, if_neg (by simp [hset]), if_neg htaxes]
    unfold processRowATail
    rw [hsym]
    dsimp only
    rw [if_neg (show ¬ (TVSide.dividend = .buy ∨ TVSide.dividend = .sell) by decide),
      if_pos (show TVSide.dividend = .dividend from rfl)]
    rw [if_neg (not_le.mpr hamt)]
    exact ⟨_, rfl, rfl, rfl⟩

/-- Witness for C6 (amended) at the 50 EUR dividend row. -/
theorem C6_dividend_interest_amended_witness :
    (∃ rec : WFRecord, processRowB 0 tDiv [] = ([rec], [], []) ∧
      rec.quantity = 1 ∧ rec.unitPrice = |parseEuropeanNumber tDiv.amount| ∧
      rec.activityType = .DIVIDEND) ∧
    (∃ rec : TVRecord, processRowA 0 tDiv [] = ([rec], [], []) ∧
      rec.Qty = some |parseEuropeanNumber tDiv.amount| ∧ rec.Side = .dividend) :=
  ⟨C6_dividend_interest_amended.1 0 tDiv [] .DIVIDEND (by decide) (by decide) (by decide)
      (by decide) (Or.inl rfl) (by with_unfolding_all decide) (Or.inl rfl)
      (by with_unfolding_all decide),
    C6_dividend_interest_amended.2 0 tDiv [] (by decide) (by decide) (by decide)
      (by decide) (by with_unfolding_all decide) (Or.inl rfl)
      (by with_unfolding_all decide)⟩

/-- Witness for C8 at concrete resolved symbols. -/
theorem C8_symbol_derivation_witness :
    getTradingViewSymbol rsValidatedTV = "SWB:SAP" ∧
    getTradingViewSymbol rsEmptyTV = "XETR:SAP" ∧
    convertToYahooSymbol rsFallbackYahoo = "APC.MU" := by
  refine ⟨?_, ?_, ?_⟩
  · exact C8_symbol_derivation.1 rsValidatedTV "SWB:SAP" rfl (by decide)
  · exact C8_symbol_derivation.2.1 rsEmptyTV (Or.inr rfl)
  · have h := C8_symbol_derivation.2.2.2.1 rsFallbackYahoo (Or.inl rfl)
    rw [h]
    decide

end ScalableConv
